import Mathlib

/-!
Verification development for the NetLabyrinth3D game server.

The definitions below are a shallow embedding of the server sources:

* `GameLogic` (engine state, movement, items, coins, finish ranks, tick),
* `PlayerManager` (durable identities, MAC validation, register or resolve),
* `CommandSystem` (operator console commands, in particular `coin`),
* `NetworkManager` (WebSocket frame decoding and client-data handling),
* the `auth` branch of the network message callback of `main`.

Modelling conventions: C++ `int` becomes `Int`; C++ `float` becomes `ℚ`
(exact arithmetic; `static_cast<int>` is truncation toward zero and
`std::round` is rounding half away from zero, both modelled explicitly);
`std::chrono::steady_clock::time_point` becomes an `Int` count of seconds of
a monotonic clock, so that a `duration_cast<seconds>(a - b).count()`
comparison becomes integer subtraction; `std::map` becomes an association
list; random draws (`GeneratePlayerId`, `FindRandomSpawnPoint`) become
explicit parameters holding the values the random source produced.
-/

namespace NetLab

/-- Cells of the maze grid, the C++ `std::tuple<int,int,int>` of `(x, y, z)`. -/
abbrev Cell := Int × Int × Int

/-- Truncation toward zero: the semantics of `static_cast<int>` on a float. -/
def truncToInt (q : ℚ) : Int := if 0 ≤ q then ⌊q⌋ else ⌈q⌉

/-- Rounding half away from zero: the semantics of `std::round` followed by
`static_cast<int>`. -/
def roundToInt (q : ℚ) : Int := if 0 ≤ q then ⌊q + 1/2⌋ else ⌈q - 1/2⌉

/-- Default `GameConfig::mazeWidth`; `GameLogic` never overwrites `config_`. -/
def mazeWidth : Int := 50

/-- Default `GameConfig::mazeHeight`. -/
def mazeHeight : Int := 50

/-- Default `GameConfig::mazeLayers`. -/
def mazeLayers : Int := 7

/-- The C++ `enum class ItemType`. -/
inductive ItemType where
  | SPEED_POTION
  | COMPASS
  | HAMMER
  | KILL_SWORD
  | SLOW_TRAP
  | SWAP_ITEM
  | COIN
deriving DecidableEq

/-- The C++ `enum class MoveDirection`. -/
inductive MoveDirection where
  | FORWARD
  | BACKWARD
  | LEFT
  | RIGHT
  | UP
  | DOWN
deriving DecidableEq

/-- The per-player `std::map<ItemType,int>` inventory, as a total record
(a missing key reads as 0, exactly like `operator[]` default-insertion). -/
structure Inventory where
  SPEED_POTION : Int
  COMPASS : Int
  HAMMER : Int
  KILL_SWORD : Int
  SLOW_TRAP : Int
  SWAP_ITEM : Int
  COIN : Int
deriving DecidableEq

/-- Read the inventory counter of one item kind. -/
def invGet (inv : Inventory) : ItemType → Int
  | .SPEED_POTION => inv.SPEED_POTION
  | .COMPASS => inv.COMPASS
  | .HAMMER => inv.HAMMER
  | .KILL_SWORD => inv.KILL_SWORD
  | .SLOW_TRAP => inv.SLOW_TRAP
  | .SWAP_ITEM => inv.SWAP_ITEM
  | .COIN => inv.COIN

/-- Add `d` to the inventory counter of one item kind. -/
def invAdd (inv : Inventory) (it : ItemType) (d : Int) : Inventory :=
  match it with
  | .SPEED_POTION => { inv with SPEED_POTION := inv.SPEED_POTION + d }
  | .COMPASS => { inv with COMPASS := inv.COMPASS + d }
  | .HAMMER => { inv with HAMMER := inv.HAMMER + d }
  | .KILL_SWORD => { inv with KILL_SWORD := inv.KILL_SWORD + d }
  | .SLOW_TRAP => { inv with SLOW_TRAP := inv.SLOW_TRAP + d }
  | .SWAP_ITEM => { inv with SWAP_ITEM := inv.SWAP_ITEM + d }
  | .COIN => { inv with COIN := inv.COIN + d }

/-- The all-zero inventory `AddPlayer` installs. -/
def zeroInventory : Inventory := ⟨0, 0, 0, 0, 0, 0, 0⟩

/-- The C++ `struct PlayerState`. -/
structure PlayerState where
  playerId : Int
  x : ℚ
  y : ℚ
  z : ℚ
  rotation : ℚ
  isAlive : Bool
  hasCompass : Bool
  hasSpeedBoost : Bool
  speedBoostEndTime : Int
  coins : Int
  inventory : Inventory
  reachedGoal : Bool
  finishRank : Int
deriving DecidableEq

/-- Association-list lookup, the model of `std::map::find`. -/
def lookupA {κ α : Type} [DecidableEq κ] : List (κ × α) → κ → Option α
  | [], _ => none
  | (k0, a) :: t, k => if k0 = k then some a else lookupA t k

/-- Update the value stored at a key in place (no effect on a missing key). -/
def updA {κ α : Type} [DecidableEq κ] : List (κ × α) → κ → (α → α) → List (κ × α)
  | [], _, _ => []
  | (k0, a) :: t, k, f =>
    if k0 = k then (k0, f a) :: updA t k f else (k0, a) :: updA t k f

/-- Insert-or-assign, the model of `map[k] = v`. -/
def insA {κ α : Type} [DecidableEq κ] (l : List (κ × α)) (k : κ) (a : α) :
    List (κ × α) :=
  if (lookupA l k).isSome then updA l k (fun _ => a) else l ++ [(k, a)]

/-- The private state of the C++ `GameLogic` class.  The maze is read through
`wall i j k`, the model of `mazeLayout_[i][j][k]` (first index is the layer). -/
structure GameState where
  players : List (Int × PlayerState)
  wall : Int → Int → Int → Bool
  coinPositions : List Cell
  coinCollected : List Bool
  startPosition : Cell
  endPosition : Cell
  gameRunning : Bool
  remainingCoins : Int
  finishedPlayersCount : Int
  nextFinishRank : Int
  slowTraps : List (Cell × Int)
  brokenWalls : List Cell
  wallRepairTimes : List (Cell × Int)

/-- `GameLogic::Initialize` applied to a freshly constructed `GameLogic`
(the only way the program ever calls it). -/
def Initialize (wall0 : Int → Int → Int → Bool) (coinPositions : List Cell)
    (startPos endPos : Cell) : GameState :=
  { players := []
    wall := wall0
    coinPositions := coinPositions
    coinCollected := List.replicate coinPositions.length false
    startPosition := startPos
    endPosition := endPos
    gameRunning := true
    remainingCoins := (coinPositions.length : Int)
    finishedPlayersCount := 0
    nextFinishRank := 1
    slowTraps := []
    brokenWalls := []
    wallRepairTimes := [] }

/-- `GameLogic::CheckCollision`: true when the rounded cell is out of bounds
or a wall. -/
def CheckCollision (s : GameState) (x y z : ℚ) : Bool :=
  let gridX := roundToInt x
  let gridY := roundToInt y
  let gridZ := roundToInt z
  if gridX < 0 ∨ mazeWidth ≤ gridX ∨ gridY < 0 ∨ mazeLayers ≤ gridY ∨
      gridZ < 0 ∨ mazeHeight ≤ gridZ then
    true
  else
    s.wall gridY gridX gridZ

/-- `GameLogic::IsValidPosition`: in bounds and not a wall. -/
def IsValidPosition (s : GameState) (x y z : ℚ) : Bool :=
  let gridX := roundToInt x
  let gridY := roundToInt y
  let gridZ := roundToInt z
  if gridX < 0 ∨ mazeWidth ≤ gridX ∨ gridY < 0 ∨ mazeLayers ≤ gridY ∨
      gridZ < 0 ∨ mazeHeight ≤ gridZ then
    false
  else
    !(s.wall gridY gridX gridZ)

/-- Overwrite the runtime record of one player (in-place map mutation). -/
def setPlayer (s : GameState) (pid : Int) (p : PlayerState) : GameState :=
  { s with players := updA s.players pid (fun _ => p) }

/-- Point update of the maze, the model of `mazeLayout_[i][j][k] = v`. -/
def setWall (w : Int → Int → Int → Bool) (i j k : Int) (v : Bool) :
    Int → Int → Int → Bool :=
  fun a b c => if a = i ∧ b = j ∧ c = k then v else w a b c

/-- Movement speed: doubled while the speed boost flag is set (`0.2f` vs
`0.1f`, modelled exactly). -/
def moveSpeed (p : PlayerState) : ℚ := if p.hasSpeedBoost then 2/10 else 1/10

/-- The displacement `MovePlayer` computes from the direction.  `sinRot` and
`cosRot` are the values of `sin(player.rotation)` and `cos(player.rotation)`
the C runtime produced, passed explicitly (transcendental functions are the
only part of the arithmetic not reproduced in the model). -/
def moveDelta (p : PlayerState) (dir : MoveDirection) (sinRot cosRot : ℚ) :
    ℚ × ℚ × ℚ :=
  let sp := moveSpeed p
  match dir with
  | .FORWARD => (-sinRot * sp, 0, -cosRot * sp)
  | .BACKWARD => (sinRot * sp, 0, cosRot * sp)
  | .LEFT => (-cosRot * sp, 0, sinRot * sp)
  | .RIGHT => (cosRot * sp, 0, -sinRot * sp)
  | .UP => (0, if p.y < (mazeLayers : ℚ) - 1 then sp else 0, 0)
  | .DOWN => (0, if 0 < p.y then -sp else 0, 0)

/-- `GameLogic::CalculateCoinReward`. -/
def CalculateCoinReward (rank : Int) : Int := 61 - rank

/-- `GameLogic::CheckPlayerReachedGoal`. -/
def CheckPlayerReachedGoal (s : GameState) (playerId : Int) : Bool × GameState :=
  match lookupA s.players playerId with
  | none => (false, s)
  | some p =>
    if p.reachedGoal then (false, s)
    else
      let rank := s.nextFinishRank
      let p1 := { p with
        reachedGoal := true
        finishRank := rank
        coins := p.coins + CalculateCoinReward rank }
      (true, { setPlayer s playerId p1 with
        nextFinishRank := rank + 1
        finishedPlayersCount := s.finishedPlayersCount + 1 })

/-- `GameLogic::MovePlayer`. -/
def MovePlayer (s : GameState) (playerId : Int) (dir : MoveDirection)
    (sinRot cosRot : ℚ) : Bool × GameState :=
  match lookupA s.players playerId with
  | none => (false, s)
  | some p =>
    if !p.isAlive then (false, s)
    else
      let d := moveDelta p dir sinRot cosRot
      let newX := p.x + d.1
      let newY := p.y + d.2.1
      let newZ := p.z + d.2.2
      if CheckCollision s newX newY newZ then (false, s)
      else
        let s1 := setPlayer s playerId { p with x := newX, y := newY, z := newZ }
        let s2 :=
          if truncToInt newX = s.endPosition.1 ∧ truncToInt newY = s.endPosition.2.1 ∧
              truncToInt newZ = s.endPosition.2.2 then
            (CheckPlayerReachedGoal s1 playerId).2
          else s1
        (true, s2)

/-- The price table of `GameLogic::PurchaseItem` (the `default` case of the
switch, reached for `COIN`, returns failure). -/
def itemPrice : ItemType → Option Int
  | .SPEED_POTION => some 20
  | .COMPASS => some 25
  | .HAMMER => some 50
  | .KILL_SWORD => some 50
  | .SLOW_TRAP => some 30
  | .SWAP_ITEM => some 60
  | .COIN => none

/-- `GameLogic::PurchaseItem`. -/
def PurchaseItem (s : GameState) (playerId : Int) (itemType : ItemType) :
    Bool × GameState :=
  match lookupA s.players playerId with
  | none => (false, s)
  | some p =>
    match itemPrice itemType with
    | none => (false, s)
    | some price =>
      if price ≤ p.coins then
        (true, setPlayer s playerId
          { p with coins := p.coins - price, inventory := invAdd p.inventory itemType 1 })
      else (false, s)

/-- `GameLogic::ApplySpeedPotion`. -/
def ApplySpeedPotion (s : GameState) (playerId : Int) (now : Int) : GameState :=
  match lookupA s.players playerId with
  | none => s
  | some p =>
    setPlayer s playerId { p with hasSpeedBoost := true, speedBoostEndTime := now + 10 }

/-- `GameLogic::ApplyCompass`. -/
def ApplyCompass (s : GameState) (playerId : Int) : GameState :=
  match lookupA s.players playerId with
  | none => s
  | some p => setPlayer s playerId { p with hasCompass := true }

/-- `GameLogic::ApplyHammer`: breaks an in-bounds wall cell and schedules its
repair instant 60 seconds ahead (`wallRepairTimes_[targetPos] = now + 60 s`). -/
def ApplyHammer (s : GameState) (playerId : Int) (targetPos : Cell) (now : Int) :
    GameState :=
  let x := targetPos.1
  let y := targetPos.2.1
  let z := targetPos.2.2
  if 0 ≤ x ∧ x < mazeWidth ∧ 0 ≤ y ∧ y < mazeLayers ∧ 0 ≤ z ∧ z < mazeHeight ∧
      s.wall y x z then
    { s with
      wall := setWall s.wall y x z false
      brokenWalls := s.brokenWalls ++ [targetPos]
      wallRepairTimes := insA s.wallRepairTimes targetPos (now + 60) }
  else s

/-- `GameLogic::FindRandomSpawnPoint`: the source draws uniformly random
in-bounds cells until one is not a wall; `candidates` holds the drawn cells
and the result is the first non-wall one. -/
def FindRandomSpawnPoint (s : GameState) (candidates : List Cell) : Option Cell :=
  candidates.find? (fun c => !(s.wall c.2.1 c.1 c.2.2))

/-- `GameLogic::RespawnPlayer`: moves the player to the drawn spawn cell,
revives it and clears the speed boost; every other field is kept. -/
def RespawnPlayer (s : GameState) (playerId : Int) (candidates : List Cell) :
    GameState :=
  match lookupA s.players playerId with
  | none => s
  | some p =>
    match FindRandomSpawnPoint s candidates with
    | none => s
    | some c =>
      setPlayer s playerId
        { p with x := (c.1 : ℚ), y := (c.2.1 : ℚ), z := (c.2.2 : ℚ),
                 isAlive := true, hasSpeedBoost := false }

/-- `GameLogic::ApplyKillSword`: no-op unless the target exists and is alive;
otherwise marks it dead and immediately respawns it. -/
def ApplyKillSword (s : GameState) (playerId targetPlayerId : Int)
    (candidates : List Cell) : GameState :=
  match lookupA s.players targetPlayerId with
  | none => s
  | some t =>
    if !t.isAlive then s
    else
      RespawnPlayer (setPlayer s targetPlayerId { t with isAlive := false })
        targetPlayerId candidates

/-- `GameLogic::ApplySlowTrap`. -/
def ApplySlowTrap (s : GameState) (playerId : Int) (targetPos : Cell) (now : Int) :
    GameState :=
  { s with slowTraps := s.slowTraps ++ [(targetPos, now)] }

/-- `GameLogic::ApplySwapItem`. -/
def ApplySwapItem (s : GameState) (playerId targetPlayerId : Int) : GameState :=
  match lookupA s.players playerId, lookupA s.players targetPlayerId with
  | some p1, some p2 =>
    let s1 := setPlayer s playerId { p1 with x := p2.x, y := p2.y, z := p2.z }
    setPlayer s1 targetPlayerId { p2 with x := p1.x, y := p1.y, z := p1.z }
  | _, _ => s

/-- `GameLogic::UseItem`.  After the inventory check the switch applies the
effect (the `KILL_SWORD` and `SWAP_ITEM` cases only when a target id other
than -1 was supplied, and the `default` case, reached for `COIN`, returns
failure before the decrement); then the counter is decremented and the call
reports success. -/
def UseItem (s : GameState) (playerId : Int) (itemType : ItemType)
    (targetPlayerId : Int) (targetPos : Cell) (now : Int)
    (candidates : List Cell) : Bool × GameState :=
  match lookupA s.players playerId with
  | none => (false, s)
  | some p =>
    if invGet p.inventory itemType ≤ 0 then (false, s)
    else
      let effected : Option GameState :=
        match itemType with
        | .SPEED_POTION => some (ApplySpeedPotion s playerId now)
        | .COMPASS => some (ApplyCompass s playerId)
        | .HAMMER => some (ApplyHammer s playerId targetPos now)
        | .KILL_SWORD =>
          some (if targetPlayerId ≠ -1 then
                  ApplyKillSword s playerId targetPlayerId candidates
                else s)
        | .SLOW_TRAP => some (ApplySlowTrap s playerId targetPos now)
        | .SWAP_ITEM =>
          some (if targetPlayerId ≠ -1 then ApplySwapItem s playerId targetPlayerId
                else s)
        | .COIN => none
      match effected with
      | none => (false, s)
      | some s1 =>
        let dec : PlayerState → PlayerState :=
          fun q => { q with inventory := invAdd q.inventory itemType (-1) }
        (true, { s1 with players := updA s1.players playerId dec })

/-- `GameLogic::CollectCoin`. -/
def CollectCoin (s : GameState) (playerId : Int) (coinId : Int) :
    Bool × GameState :=
  if coinId < 0 ∨ (s.coinCollected.length : Int) ≤ coinId ∨
      s.coinCollected.getD coinId.toNat false then
    (false, s)
  else
    match lookupA s.players playerId with
    | none => (false, s)
    | some p =>
      (true, { setPlayer s playerId { p with coins := p.coins + 1 } with
        coinCollected := s.coinCollected.set coinId.toNat true
        remainingCoins := s.remainingCoins - 1 })

/-- `GameLogic::AddPlayer`.  `rotation` and `speedBoostEndTime` are left
uninitialized by the source; the model fixes them at 0. -/
def AddPlayer (s : GameState) (playerId : Int) (startPos : Cell) :
    Bool × GameState :=
  match lookupA s.players playerId with
  | some _ => (false, s)
  | none =>
    let p : PlayerState :=
      { playerId := playerId
        x := (startPos.1 : ℚ)
        y := (startPos.2.1 : ℚ)
        z := (startPos.2.2 : ℚ)
        rotation := 0
        isAlive := true
        hasCompass := false
        hasSpeedBoost := false
        speedBoostEndTime := 0
        coins := 0
        inventory := zeroInventory
        reachedGoal := false
        finishRank := 0 }
    (true, { s with players := s.players ++ [(playerId, p)] })

/-- `GameLogic::RemovePlayer`. -/
def RemovePlayer (s : GameState) (playerId : Int) : Bool × GameState :=
  ((lookupA s.players playerId).isSome,
    { s with players := s.players.filter (fun q => q.1 != playerId) })

/-- `GameLogic::CheckSpeedBoostExpiry` applied to one player record. -/
def CheckSpeedBoostExpiry (now : Int) (p : PlayerState) : PlayerState :=
  if p.hasSpeedBoost ∧ p.speedBoostEndTime < now then { p with hasSpeedBoost := false }
  else p

/-- `GameLogic::Update` (the tick): expires speed boosts, drops slow traps
older than 30 s, and restores a broken wall only once
`duration_cast<seconds>(now - repairTime).count() > 60`, that is more than
60 further seconds after the already-delayed stored repair instant. -/
def Update (s : GameState) (now : Int) : GameState :=
  let expire : Int × PlayerState → Int × PlayerState :=
    fun q => (q.1, CheckSpeedBoostExpiry now q.2)
  let trapKeep : Cell × Int → Bool := fun t => !decide (30 < now - t.2)
  let wallDue : Cell × Int → Bool := fun w => decide (60 < now - w.2)
  let restore : (Int → Int → Int → Bool) → Cell × Int → Int → Int → Int → Bool :=
    fun w q => setWall w q.1.2.1 q.1.1 q.1.2.2 true
  { s with
    players := s.players.map expire
    slowTraps := s.slowTraps.filter trapKeep
    wall := (s.wallRepairTimes.filter wallDue).foldl restore s.wall
    wallRepairTimes := s.wallRepairTimes.filter (fun w => !wallDue w) }

/-- `GameLogic::GiveItem`. -/
def GiveItem (s : GameState) (playerId : Int) (itemType : ItemType) (count : Int) :
    Bool × GameState :=
  match lookupA s.players playerId with
  | none => (false, s)
  | some p =>
    (true, setPlayer s playerId { p with inventory := invAdd p.inventory itemType count })

/-- `GameLogic::TeleportPlayer`. -/
def TeleportPlayer (s : GameState) (playerId : Int) (x y z : ℚ) :
    Bool × GameState :=
  match lookupA s.players playerId with
  | none => (false, s)
  | some p =>
    if !IsValidPosition s x y z then (false, s)
    else (true, setPlayer s playerId { p with x := x, y := y, z := z })

/-- `GameLogic::KillPlayer`. -/
def KillPlayer (s : GameState) (playerId : Int) (candidates : List Cell) :
    Bool × GameState :=
  match lookupA s.players playerId with
  | none => (false, s)
  | some p =>
    if !p.isAlive then (false, s)
    else
      (true, RespawnPlayer (setPlayer s playerId { p with isAlive := false })
        playerId candidates)

/-- `GameLogic::SetPlayerCoins`. -/
def SetPlayerCoins (s : GameState) (playerId : Int) (coins : Int) :
    Bool × GameState :=
  match lookupA s.players playerId with
  | none => (false, s)
  | some p => (true, setPlayer s playerId { p with coins := coins })

/-- `GameLogic::ResetGameState`. -/
def ResetGameState (s : GameState) : GameState :=
  { s with
    players := s.players.map (fun q => (q.1,
      { q.2 with
        x := (s.startPosition.1 : ℚ)
        y := (s.startPosition.2.1 : ℚ)
        z := (s.startPosition.2.2 : ℚ)
        isAlive := true
        hasCompass := false
        hasSpeedBoost := false
        reachedGoal := false
        finishRank := 0 }))
    coinCollected := List.replicate s.coinCollected.length false
    remainingCoins := (s.coinPositions.length : Int)
    finishedPlayersCount := 0
    nextFinishRank := 1
    slowTraps := []
    wall := s.brokenWalls.foldl (fun w c =>
      if 0 ≤ c.1 ∧ c.1 < mazeWidth ∧ 0 ≤ c.2.1 ∧ c.2.1 < mazeLayers ∧
          0 ≤ c.2.2 ∧ c.2.2 < mazeHeight then
        setWall w c.2.1 c.1 c.2.2 true
      else w) s.wall
    brokenWalls := []
    wallRepairTimes := [] }

/-! ## PlayerManager -/

/-- The C++ `struct PlayerData` (durable record).  `lastLogin` is a
`system_clock` timestamp in seconds. -/
structure PlayerData where
  playerId : String
  macAddress : String
  cookie : String
  totalCoins : Int
  gamesPlayed : Int
  gamesWon : Int
  lastLogin : Int
  isOnline : Bool
deriving DecidableEq

/-- The private state of the C++ `PlayerManager` class. -/
structure PMState where
  players : List (String × PlayerData)
  macToPlayerId : List (String × String)
  cookieToPlayerId : List (String × String)
  onlinePlayers : List String
deriving DecidableEq

/-- Hexadecimal digit test used by the MAC validation. -/
def isHexDigitChar (c : Char) : Bool :=
  decide ('0' ≤ c ∧ c ≤ '9') || decide ('A' ≤ c ∧ c ≤ 'F') ||
    decide ('a' ≤ c ∧ c ≤ 'f')

/-- Per-position check of the MAC validation loop: every third position must
hold the separator, every other one a hex digit. -/
def macCharOk (sep : Char) (i : Nat) (c : Char) : Bool :=
  if (i + 1) % 3 = 0 then decide (c = sep) else isHexDigitChar c

/-- `PlayerManager::ValidateMacAddress`: exactly 17 characters, the third
character a `:` or `-` separator, and the canonical pattern throughout. -/
def ValidateMacAddress (macAddress : String) : Bool :=
  let cs := macAddress.toList
  if cs.length ≠ 17 then false
  else
    match cs[2]? with
    | none => false
    | some sep =>
      if sep ≠ ':' ∧ sep ≠ '-' then false
      else cs.enum.all fun q => macCharOk sep q.1 q.2

/-- `PlayerManager::FindPlayerByIdentifier`: MAC index first, then cookie
index (only for a non-empty cookie); the empty string signals no match. -/
def FindPlayerByIdentifier (pm : PMState) (macAddress cookie : String) : String :=
  match lookupA pm.macToPlayerId macAddress with
  | some pid => pid
  | none =>
    if cookie ≠ "" then
      match lookupA pm.cookieToPlayerId cookie with
      | some pid => pid
      | none => ""
    else ""

/-- `PlayerManager::CreateDefaultPlayerData`. -/
def CreateDefaultPlayerData (playerId macAddress cookie : String) (now : Int) :
    PlayerData :=
  { playerId := playerId
    macAddress := macAddress
    cookie := cookie
    totalCoins := 0
    gamesPlayed := 0
    gamesWon := 0
    lastLogin := now
    isOnline := false }

/-- The id format `PlayerManager::GeneratePlayerId` produces:
`PLAYER_` followed by a random number in 100000..999999. -/
def canonicalPlayerId (n : Int) : String := "PLAYER_" ++ toString n

/-- `PlayerManager::RegisterPlayer`.  `freshId` is the id the random
generator produced for the case a new identity is minted. -/
def RegisterPlayer (pm : PMState) (macAddress cookie freshId : String)
    (now : Int) : String × PMState :=
  if !ValidateMacAddress macAddress then ("", pm)
  else
    let existing := FindPlayerByIdentifier pm macAddress cookie
    if existing ≠ "" then (existing, pm)
    else
      let newPlayer := CreateDefaultPlayerData freshId macAddress cookie now
      let pm1 := { pm with
        players := insA pm.players freshId newPlayer
        macToPlayerId := insA pm.macToPlayerId macAddress freshId }
      let pm2 :=
        if cookie ≠ "" then
          { pm1 with cookieToPlayerId := insA pm1.cookieToPlayerId cookie freshId }
        else pm1
      (freshId, pm2)

/-- `PlayerManager::LoginPlayer`. -/
def LoginPlayer (pm : PMState) (playerId : String) (now : Int) : Bool × PMState :=
  match lookupA pm.players playerId with
  | none => (false, pm)
  | some _ =>
    let mark : PlayerData → PlayerData :=
      fun d => { d with isOnline := true, lastLogin := now }
    let pm1 := { pm with players := updA pm.players playerId mark }
    let pm2 :=
      if pm1.onlinePlayers.contains playerId then pm1
      else { pm1 with onlinePlayers := pm1.onlinePlayers ++ [playerId] }
    (true, pm2)

/-- `PlayerManager::LogoutPlayer`. -/
def LogoutPlayer (pm : PMState) (playerId : String) : PMState :=
  { pm with
    players := updA pm.players playerId (fun d => { d with isOnline := false })
    onlinePlayers := pm.onlinePlayers.filter (fun q => q != playerId) }

/-- The value-initialized `PlayerData()` that `GetPlayerData` returns on a
miss. -/
def defaultPlayerData : PlayerData :=
  { playerId := "", macAddress := "", cookie := "", totalCoins := 0,
    gamesPlayed := 0, gamesWon := 0, lastLogin := 0, isOnline := false }

/-- `PlayerManager::GetPlayerData`. -/
def GetPlayerData (pm : PMState) (playerId : String) : PlayerData :=
  (lookupA pm.players playerId).getD defaultPlayerData

/-- `PlayerManager::UpdatePlayerData`. -/
def UpdatePlayerData (pm : PMState) (playerId : String) (newData : PlayerData) :
    Bool × PMState :=
  match lookupA pm.players playerId with
  | none => (false, pm)
  | some _ => (true, { pm with players := updA pm.players playerId (fun _ => newData) })

/-- `PlayerManager::IsSessionValid`: the record exists and is online. -/
def IsSessionValid (pm : PMState) (playerId : String) : Bool :=
  match lookupA pm.players playerId with
  | none => false
  | some d => d.isOnline

/-! ## CommandSystem -/

/-- The C++ `struct CommandResult`. -/
structure CommandResult where
  success : Bool
  message : String
deriving DecidableEq

/-- The C++ `enum class AdminLevel`. -/
inductive AdminLevel where
  | NONE
  | MODERATOR
  | ADMIN
  | SUPER_ADMIN
deriving DecidableEq

/-- Numeric value of an admin level (the C++ enum underlying value). -/
def AdminLevel.toInt : AdminLevel → Int
  | .NONE => 0
  | .MODERATOR => 1
  | .ADMIN => 2
  | .SUPER_ADMIN => 3

/-- The combined state the `CommandSystem` mutates through its references. -/
structure CSState where
  game : GameState
  pm : PMState
  admins : List (String × AdminLevel)
  commandHistory : List String

/-- The `DEFAULT_ADMINS` seeded by the constructor, each at level `ADMIN`. -/
def defaultAdmins : List (String × AdminLevel) :=
  [("admin", .ADMIN), ("root", .ADMIN)]

/-- `CommandSystem::CheckPermission`. -/
def CheckPermission (cs : CSState) (playerId : String) (requiredLevel : AdminLevel) :
    Bool :=
  match lookupA cs.admins playerId with
  | none => false
  | some l => decide (requiredLevel.toInt ≤ l.toInt)

/-- `CommandSystem::IsValidPlayer`: delegates to the session check. -/
def IsValidPlayer (cs : CSState) (playerId : String) : Bool :=
  IsSessionValid cs.pm playerId

/-- Whitespace in the C locale (`isspace`). -/
def isSpaceChar (c : Char) : Bool :=
  decide (c = ' ') || decide (c = '\t') || decide (c = '\n') ||
    decide (c = '\r') || decide (c = '\x0b') || decide (c = '\x0c')

/-- Value of a list of decimal digit characters. -/
def digitsToInt (ds : List Char) : Int :=
  ds.foldl (fun acc c => acc * 10 + ((c.toNat : Int) - 48)) 0

/-- `std::stoi`: skip whitespace, optional sign, then at least one decimal
digit (further non-digits are ignored); `none` models the thrown
`invalid_argument`. -/
def stoiOpt (str : String) : Option Int :=
  let cs := (str.toList).dropWhile isSpaceChar
  let sign : Int := match cs with
    | '-' :: _ => -1
    | _ => 1
  let rest := match cs with
    | '+' :: t => t
    | '-' :: t => t
    | t => t
  let ds := rest.takeWhile (fun c => c.isDigit)
  if ds.isEmpty then none else some (sign * digitsToInt ds)

/-- `CommandSystem::ConvertPlayerIdToInt`: `std::stoi` with the exception
mapped to -1. -/
def ConvertPlayerIdToInt (playerId : String) : Int := (stoiOpt playerId).getD (-1)

/-- Strip one pair of surrounding double quotes from a token. -/
def stripQuotes (token : String) : String :=
  let cs := token.toList
  match cs with
  | [] => token
  | c :: _ =>
    if c = '"' ∧ cs.getLast? = some '"' then String.mk ((cs.drop 1).dropLast)
    else token

/-- ASCII lowercasing of one character, the C-locale `::tolower`. -/
def toLowerAscii (c : Char) : Char :=
  if 'A' ≤ c ∧ c ≤ 'Z' then Char.ofNat (c.toNat + 32) else c

/-- Lowercasing a whole string via `std::transform` with `::tolower`. -/
def strToLower (str : String) : String := String.mk (str.toList.map toLowerAscii)

/-- Whitespace-delimited tokenization, the semantics of repeated
`stringstream >> token` extraction (empty tokens are skipped). -/
def tokenize (cs : List Char) : List String :=
  let step : Char → List (List Char) → List (List Char) :=
    fun c acc =>
      if isSpaceChar c then [] :: acc
      else
        match acc with
        | [] => [[c]]
        | t :: rest => (c :: t) :: rest
  ((cs.foldr step []).filter (fun t => !t.isEmpty)).map String.mk

/-- `CommandSystem::ParseCommand`: whitespace-separated tokens, surrounding
quotes removed. -/
def ParseCommand (command : String) : List String :=
  (tokenize command.toList).map stripQuotes

/-- `CommandSystem::ParseItemType` (unknown strings fall back to `COIN`). -/
def ParseItemType (itemStr : String) : ItemType :=
  let lowerItem := strToLower itemStr
  if lowerItem = "speed_potion" ∨ lowerItem = "speed" then .SPEED_POTION
  else if lowerItem = "compass" then .COMPASS
  else if lowerItem = "hammer" then .HAMMER
  else if lowerItem = "kill_sword" ∨ lowerItem = "sword" then .KILL_SWORD
  else if lowerItem = "slow_trap" ∨ lowerItem = "trap" then .SLOW_TRAP
  else if lowerItem = "swap_item" ∨ lowerItem = "swap" then .SWAP_ITEM
  else .COIN

/-- `CommandSystem::ItemTypeToString`. -/
def ItemTypeToString : ItemType → String
  | .SPEED_POTION => "Speed Potion"
  | .COMPASS => "Compass"
  | .HAMMER => "Hammer"
  | .KILL_SWORD => "Kill Sword"
  | .SLOW_TRAP => "Slow Trap"
  | .SWAP_ITEM => "Swap Item"
  | .COIN => "Coin"

/-- Decimal fragment of `std::stof` (the commands only ever receive plain
decimal literals; exponent and hex forms are not modelled). -/
def stofOpt (str : String) : Option ℚ :=
  let cs := (str.toList).dropWhile isSpaceChar
  let sign : ℚ := match cs with
    | '-' :: _ => -1
    | _ => 1
  let rest := match cs with
    | '+' :: t => t
    | '-' :: t => t
    | t => t
  let intPart := rest.takeWhile (fun c => c.isDigit)
  let rest2 := rest.drop intPart.length
  let fracPart := match rest2 with
    | '.' :: t => t.takeWhile (fun c => c.isDigit)
    | _ => []
  if intPart.isEmpty ∧ fracPart.isEmpty then none
  else
    some (sign * ((digitsToInt intPart : ℚ) +
      (digitsToInt fracPart : ℚ) / ((10 : ℚ) ^ fracPart.length)))

/-- `CommandSystem::ParsePosition`. -/
def ParsePosition (args : List String) (startIndex : Nat) : Option (ℚ × ℚ × ℚ) :=
  if args.length < startIndex + 3 then none
  else
    match stofOpt (args.getD startIndex ""), stofOpt (args.getD (startIndex + 1) ""),
        stofOpt (args.getD (startIndex + 2) "") with
    | some x, some y, some z => some (x, y, z)
    | _, _, _ => none

/-- `CommandSystem::HandleCoin`. -/
def HandleCoin (cs : CSState) (args : List String) (executorId : String) :
    CommandResult × CSState :=
  if !CheckPermission cs executorId .ADMIN then
    (⟨false, "Insufficient permissions for coin command"⟩, cs)
  else if args.length < 3 then
    (⟨false, "Usage: coin <player> <amount>"⟩, cs)
  else
    let playerId := args.getD 1 ""
    if !IsValidPlayer cs playerId then
      (⟨false, "Invalid player: " ++ playerId⟩, cs)
    else
      match stoiOpt (args.getD 2 "") with
      | none => (⟨false, "Command execution error: stoi"⟩, cs)
      | some amount =>
        let playerIdInt := ConvertPlayerIdToInt playerId
        if playerIdInt = -1 then
          (⟨false, "Invalid player ID format: " ++ playerId⟩, cs)
        else
          let r := SetPlayerCoins cs.game playerIdInt amount
          if r.1 then
            let data := GetPlayerData cs.pm playerId
            let pmr := UpdatePlayerData cs.pm playerId { data with totalCoins := amount }
            (⟨true, "Set coins to " ++ toString amount ++ " for player " ++ playerId⟩,
              { cs with game := r.2, pm := pmr.2 })
          else
            (⟨false, "Failed to set coins for player " ++ playerId⟩, cs)

/-- `CommandSystem::HandleGive`. -/
def HandleGive (cs : CSState) (args : List String) (executorId : String) :
    CommandResult × CSState :=
  if !CheckPermission cs executorId .ADMIN then
    (⟨false, "Insufficient permissions for give command"⟩, cs)
  else if args.length < 3 then
    (⟨false, "Usage: give <player> <item> [count]"⟩, cs)
  else
    let playerId := args.getD 1 ""
    if !IsValidPlayer cs playerId then
      (⟨false, "Invalid player: " ++ playerId⟩, cs)
    else
      let item := ParseItemType (args.getD 2 "")
      match (if 3 < args.length then stoiOpt (args.getD 3 "") else some 1) with
      | none => (⟨false, "Command execution error: stoi"⟩, cs)
      | some count =>
        if item = .COIN then
          let data := GetPlayerData cs.pm playerId
          let pmr := UpdatePlayerData cs.pm playerId
            { data with totalCoins := data.totalCoins + count }
          (⟨true, "Gave " ++ toString count ++ " coins to player " ++ playerId⟩,
            { cs with pm := pmr.2 })
        else
          let playerIdInt := ConvertPlayerIdToInt playerId
          if playerIdInt = -1 then
            (⟨false, "Invalid player ID format: " ++ playerId⟩, cs)
          else
            let r := GiveItem cs.game playerIdInt item count
            if r.1 then
              (⟨true, "Gave " ++ toString count ++ " " ++ ItemTypeToString item ++
                " to player " ++ playerId⟩, { cs with game := r.2 })
            else
              (⟨false, "Failed to give item to player " ++ playerId⟩, cs)

/-- `CommandSystem::HandleTeleport`. -/
def HandleTeleport (cs : CSState) (args : List String) (executorId : String) :
    CommandResult × CSState :=
  if !CheckPermission cs executorId .ADMIN then
    (⟨false, "Insufficient permissions for tp command"⟩, cs)
  else if args.length < 5 then
    (⟨false, "Usage: tp <player> <x> <y> <z>"⟩, cs)
  else
    let playerId := args.getD 1 ""
    if !IsValidPlayer cs playerId then
      (⟨false, "Invalid player: " ++ playerId⟩, cs)
    else
      match ParsePosition args 2 with
      | none => (⟨false, "Invalid position coordinates"⟩, cs)
      | some (x, y, z) =>
        let playerIdInt := ConvertPlayerIdToInt playerId
        if playerIdInt = -1 then
          (⟨false, "Invalid player ID format: " ++ playerId⟩, cs)
        else
          let r := TeleportPlayer cs.game playerIdInt x y z
          if r.1 then
            (⟨true, "Teleported player " ++ playerId⟩, { cs with game := r.2 })
          else
            (⟨false, "Failed to teleport player " ++ playerId ++ " - invalid position"⟩, cs)

/-- `CommandSystem::HandleKick`. -/
def HandleKick (cs : CSState) (args : List String) (executorId : String) :
    CommandResult × CSState :=
  if !CheckPermission cs executorId .MODERATOR then
    (⟨false, "Insufficient permissions for kick command"⟩, cs)
  else if args.length < 2 then
    (⟨false, "Usage: kick <player> [reason]"⟩, cs)
  else
    let playerId := args.getD 1 ""
    if !IsValidPlayer cs playerId then
      (⟨false, "Invalid player: " ++ playerId⟩, cs)
    else
      let reason := if 2 < args.length then args.getD 2 "" else "No reason specified"
      (⟨true, "Kicked player " ++ playerId ++ ": " ++ reason⟩,
        { cs with pm := LogoutPlayer cs.pm playerId })

/-- `CommandSystem::HandleKill`.  `candidates` feeds the respawn draw. -/
def HandleKill (cs : CSState) (args : List String) (executorId : String)
    (candidates : List Cell) : CommandResult × CSState :=
  if !CheckPermission cs executorId .MODERATOR then
    (⟨false, "Insufficient permissions for kill command"⟩, cs)
  else if args.length < 2 then
    (⟨false, "Usage: kill <player>"⟩, cs)
  else
    let playerId := args.getD 1 ""
    if !IsValidPlayer cs playerId then
      (⟨false, "Invalid player: " ++ playerId⟩, cs)
    else
      let playerIdInt := ConvertPlayerIdToInt playerId
      if playerIdInt = -1 then
        (⟨false, "Invalid player ID format: " ++ playerId⟩, cs)
      else
        let r := KillPlayer cs.game playerIdInt candidates
        if r.1 then (⟨true, "Killed player " ++ playerId⟩, { cs with game := r.2 })
        else (⟨false, "Failed to kill player " ++ playerId⟩, cs)

/-- `CommandSystem::HandleClear`. -/
def HandleClear (cs : CSState) (executorId : String) : CommandResult × CSState :=
  if !CheckPermission cs executorId .SUPER_ADMIN then
    (⟨false, "Insufficient permissions for clear command"⟩, cs)
  else
    (⟨true, "Game state cleared and reset"⟩, { cs with game := ResetGameState cs.game })

/-- `CommandSystem::HandleSystem`. -/
def HandleSystem (cs : CSState) (args : List String) (executorId : String) :
    CommandResult × CSState :=
  if !CheckPermission cs executorId .MODERATOR then
    (⟨false, "Insufficient permissions for system command"⟩, cs)
  else if args.length < 2 then
    (⟨false, "Usage: system <message>"⟩, cs)
  else
    (⟨true, "System message sent: " ++ String.intercalate " " (args.drop 1)⟩, cs)

/-- `CommandSystem::HandleHelp` (static usage text, abbreviated). -/
def HandleHelp (cs : CSState) : CommandResult × CSState :=
  (⟨true, "Available commands"⟩, cs)

/-- `CommandSystem::AddAdmin`. -/
def AddAdmin (cs : CSState) (playerId : String) (level : AdminLevel) : CSState :=
  { cs with admins := insA cs.admins playerId level }

/-- `CommandSystem::RemoveAdmin`. -/
def RemoveAdmin (cs : CSState) (playerId : String) : CSState :=
  { cs with admins := cs.admins.filter (fun q => q.1 != playerId) }

/-- `CommandSystem::HandleAdmin`. -/
def HandleAdmin (cs : CSState) (args : List String) (executorId : String) :
    CommandResult × CSState :=
  if !CheckPermission cs executorId .SUPER_ADMIN then
    (⟨false, "Insufficient permissions for admin command"⟩, cs)
  else if args.length < 3 then
    (⟨false, "Usage: admin <player> <level>"⟩, cs)
  else
    let playerId := args.getD 1 ""
    match stoiOpt (args.getD 2 "") with
    | none => (⟨false, "Command execution error: stoi"⟩, cs)
    | some level =>
      if level < 0 ∨ 3 < level then (⟨false, "Admin level must be 0-3"⟩, cs)
      else if level = 0 then
        (⟨true, "Removed admin privileges from " ++ playerId⟩, RemoveAdmin cs playerId)
      else
        let adminLevel : AdminLevel :=
          if level = 1 then .MODERATOR else if level = 2 then .ADMIN else .SUPER_ADMIN
        (⟨true, "Set admin level " ++ toString level ++ " for " ++ playerId⟩,
          AddAdmin cs playerId adminLevel)

/-- `CommandSystem::HandleListPlayers`. -/
def HandleListPlayers (cs : CSState) (executorId : String) : CommandResult × CSState :=
  if !CheckPermission cs executorId .MODERATOR then
    (⟨false, "Insufficient permissions for players command"⟩, cs)
  else if cs.pm.onlinePlayers.isEmpty then (⟨true, "No players online"⟩, cs)
  else
    let body := cs.pm.onlinePlayers.foldl (fun acc pid =>
      acc ++ "  " ++ pid ++ " - Coins: " ++ toString (GetPlayerData cs.pm pid).totalCoins ++
        ", Games: " ++ toString (GetPlayerData cs.pm pid).gamesPlayed ++ "\n") ""
    (⟨true, "Online players (" ++ toString cs.pm.onlinePlayers.length ++ "):\n" ++ body⟩, cs)

/-- `CommandSystem::HandleRestart`. -/
def HandleRestart (cs : CSState) (executorId : String) : CommandResult × CSState :=
  if !CheckPermission cs executorId .SUPER_ADMIN then
    (⟨false, "Insufficient permissions for restart command"⟩, cs)
  else
    (⟨true, "Game restarted - all players reset to start position"⟩,
      { cs with game := ResetGameState cs.game })

/-- `CommandSystem::ExecuteCommand`: record the line in the bounded history,
tokenize, and dispatch on the lowercased command name. -/
def ExecuteCommand (cs : CSState) (command executorId : String)
    (candidates : List Cell) : CommandResult × CSState :=
  let hist0 := cs.commandHistory ++ ["[" ++ executorId ++ "] " ++ command]
  let hist := if 1000 < hist0.length then hist0.drop 1 else hist0
  let cs1 := { cs with commandHistory := hist }
  let args := ParseCommand command
  if args.isEmpty then (⟨false, "Empty command"⟩, cs1)
  else
    let commandName := strToLower (args.getD 0 "")
    if commandName = "give" then HandleGive cs1 args executorId
    else if commandName = "tp" then HandleTeleport cs1 args executorId
    else if commandName = "kick" then HandleKick cs1 args executorId
    else if commandName = "kill" then HandleKill cs1 args executorId candidates
    else if commandName = "clear" then HandleClear cs1 executorId
    else if commandName = "coin" then HandleCoin cs1 args executorId
    else if commandName = "system" then HandleSystem cs1 args executorId
    else if commandName = "help" then HandleHelp cs1
    else if commandName = "admin" then HandleAdmin cs1 args executorId
    else if commandName = "players" then HandleListPlayers cs1 executorId
    else if commandName = "restart" then HandleRestart cs1 executorId
    else (⟨false, "Unknown command: " ++ commandName⟩, cs1)

/-! ## Message dispatch (the network message callback of `main`) -/

/-- Outbound JSON messages of the auth branch, as structured values. -/
inductive ServerMsg where
  | authFailed (message status : String)
  | authSuccess (playerId playerName status token : String)
  | playerData (playerId playerName : String) (coins posX posY posZ : Int)
deriving DecidableEq

/-- Modelled from the spec: `PlayerManager::IsValidPlayerId` is called by the
auth handler but neither defined nor declared anywhere in the sources.
Section 4.4 of the spec lists `IsValid(playerId) → bool` on the registry; the
model takes it to hold exactly of ids having a durable record. -/
def IsValidPlayerId (pm : PMState) (playerId : String) : Bool :=
  (lookupA pm.players playerId).isSome

/-- The `auth` branch of the `setMessageCallback` lambda of `main`:
with a missing or invalid `playerId` the surrogate fingerprint
`client_<connId>` and the player name as cookie are passed to
`RegisterPlayer`; on an empty result `auth_failed` is sent, otherwise a
login is attempted and `auth_success` with token `session_<epoch>` plus the
initial `player_data` snapshot (coins 0, position 0,0,0) are sent. -/
def authMessageHandler (pm : PMState) (clientId : Int)
    (playerId playerName token freshId : String) (now epochSeconds : Int) :
    PMState × List ServerMsg :=
  let resolve : String × PMState :=
    if playerId = "" ∨ !IsValidPlayerId pm playerId then
      RegisterPlayer pm ("client_" ++ toString clientId) playerName freshId now
    else (playerId, pm)
  let pid := resolve.1
  let pm1 := resolve.2
  if pid = "" then
    (pm1, [ServerMsg.authFailed "无法注册玩家，请重试" "failed"])
  else
    let lr := LoginPlayer pm1 pid now
    if lr.1 then
      (lr.2,
        [ServerMsg.authSuccess pid playerName "success"
          ("session_" ++ toString epochSeconds),
         ServerMsg.playerData pid playerName 0 0 0 0])
    else
      (pm1, [ServerMsg.authFailed "登录失败，请重试" "failed"])

/-! ## NetworkManager frame handling -/

/-- The C++ `ClientConnection` record (minus the raw socket handle). -/
structure ClientConnection where
  clientId : Int
  ipAddress : String
  handshakeCompleted : Bool
deriving DecidableEq

/-- Outcome of the `recv` call at the head of `handleClientData`. -/
inductive RecvResult where
  | bytes (data : List Nat)
  | closed
  | failed (wouldBlock : Bool)
deriving DecidableEq

/-- `NetworkManager::Impl::decodeWebSocketFrame`: returns the decoded text
payload, or the empty string on any failure — too-short input, FIN clear, a
non-text opcode, or truncated length/mask/payload. -/
def decodeWebSocketFrame (data : List Nat) : String :=
  if data.length < 2 then ""
  else
    let b0 := data.getD 0 0
    let opcode := b0 &&& 0x0F
    if b0 &&& 0x80 = 0 ∨ opcode ≠ 1 then ""
    else
      let secondByte := data.getD 1 0
      let masked := decide (secondByte &&& 0x80 ≠ 0)
      let payloadLength7 := secondByte &&& 0x7F
      let step1 : Option (Nat × Nat) :=
        if payloadLength7 = 126 then
          if data.length < 4 then none
          else some (4, ((data.getD 2 0) <<< 8) ||| data.getD 3 0)
        else if payloadLength7 = 127 then
          if data.length < 10 then none
          else some (10, (List.range 8).foldl
            (fun acc i => (acc <<< 8) ||| data.getD (2 + i) 0) 0)
        else some (2, payloadLength7)
      match step1 with
      | none => ""
      | some (idx0, payloadLength) =>
        let maskStep : Option (Nat × List Nat) :=
          if masked then
            if data.length < idx0 + 4 then none
            else some (idx0 + 4, [data.getD idx0 0, data.getD (idx0 + 1) 0,
              data.getD (idx0 + 2) 0, data.getD (idx0 + 3) 0])
          else some (idx0, [0, 0, 0, 0])
        match maskStep with
        | none => ""
        | some (index, maskingKey) =>
          if data.length < index + payloadLength then ""
          else
            String.mk ((List.range payloadLength).map (fun i =>
              Char.ofNat ((data.getD (index + i) 0) ^^^ maskingKey.getD (i % 4) 0)))

/-- Result of one `handleClientData` call: the connection table afterwards,
the messages passed to the dispatcher callback, and whether the socket was
closed. -/
structure ClientDataResult where
  clients : List (Int × ClientConnection)
  callbackMessages : List (Int × String)
  socketClosed : Bool
deriving DecidableEq

/-- `NetworkManager::Impl::handleClientData` after the `recv` call: received
bytes are frame-decoded and a non-empty decode is passed to the callback,
while an empty decode only logs a warning (the connection stays open and the
dispatcher hears nothing); a peer close or a hard error closes the socket,
drops the record and reports `DISCONNECT`. -/
def handleClientData (clients : List (Int × ClientConnection)) (clientId : Int)
    (r : RecvResult) : ClientDataResult :=
  match lookupA clients clientId with
  | none => ⟨clients, [], false⟩
  | some conn =>
    match r with
    | .bytes data =>
      if conn.handshakeCompleted then
        let message := decodeWebSocketFrame data
        if message ≠ "" then ⟨clients, [(clientId, message)], false⟩
        else ⟨clients, [], false⟩
      else ⟨clients, [], false⟩
    | .closed =>
      ⟨clients.filter (fun q => q.1 != clientId), [(clientId, "DISCONNECT")], true⟩
    | .failed wouldBlock =>
      if wouldBlock then ⟨clients, [], false⟩
      else
        ⟨clients.filter (fun q => q.1 != clientId), [(clientId, "DISCONNECT")], true⟩

/-! ## Engine operations and reachability -/

/-- One public operation of the game engine, with the inputs the surrounding
system supplies (clock readings and random draws included). -/
inductive GameOp where
  | addPlayer (playerId : Int) (startPos : Cell)
  | removePlayer (playerId : Int)
  | movePlayer (playerId : Int) (dir : MoveDirection) (sinRot cosRot : ℚ)
  | purchaseItem (playerId : Int) (itemType : ItemType)
  | useItem (playerId : Int) (itemType : ItemType) (targetPlayerId : Int)
      (targetPos : Cell) (now : Int) (candidates : List Cell)
  | collectCoin (playerId coinId : Int)
  | checkGoal (playerId : Int)
  | respawn (playerId : Int) (candidates : List Cell)
  | tick (now : Int)
  | giveItem (playerId : Int) (itemType : ItemType) (count : Int)
  | teleport (playerId : Int) (x y z : ℚ)
  | kill (playerId : Int) (candidates : List Cell)
  | setCoins (playerId coins : Int)
  | reset

/-- State transformer of one engine operation (the returned flag dropped). -/
def applyOp (s : GameState) : GameOp → GameState
  | .addPlayer pid sp => (AddPlayer s pid sp).2
  | .removePlayer pid => (RemovePlayer s pid).2
  | .movePlayer pid dir sr cr => (MovePlayer s pid dir sr cr).2
  | .purchaseItem pid it => (PurchaseItem s pid it).2
  | .useItem pid it tpid tpos now cands => (UseItem s pid it tpid tpos now cands).2
  | .collectCoin pid cid => (CollectCoin s pid cid).2
  | .checkGoal pid => (CheckPlayerReachedGoal s pid).2
  | .respawn pid cands => RespawnPlayer s pid cands
  | .tick now => Update s now
  | .giveItem pid it n => (GiveItem s pid it n).2
  | .teleport pid x y z => (TeleportPlayer s pid x y z).2
  | .kill pid cands => (KillPlayer s pid cands).2
  | .setCoins pid c => (SetPlayerCoins s pid c).2
  | .reset => ResetGameState s

/-- States the engine can reach: an initialized engine followed by any
sequence of public operations. -/
inductive Reachable : GameState → Prop where
  | init (wall0 : Int → Int → Int → Bool) (coinPositions : List Cell)
      (startPos endPos : Cell) :
      Reachable (Initialize wall0 coinPositions startPos endPos)
  | step (s : GameState) (op : GameOp) : Reachable s → Reachable (applyOp s op)

/-! ## Association-list lemmas -/

theorem lookupA_eq_none_iff {κ α : Type} [DecidableEq κ] {l : List (κ × α)} {k : κ} :
    lookupA l k = none ↔ k ∉ l.map Prod.fst := by
  induction l with
  | nil => simp [lookupA]
  | cons q t ih =>
    obtain ⟨k0, a⟩ := q
    by_cases h : k0 = k
    · subst h
      simp [lookupA]
    · simp only [lookupA, if_neg h, List.map_cons, List.mem_cons]
      rw [ih]
      constructor
      · intro hn
        rintro (rfl | hm)
        · exact h rfl
        · exact hn hm
      · intro hn hm
        exact hn (Or.inr hm)

theorem lookupA_updA_self {κ α : Type} [DecidableEq κ] (l : List (κ × α)) (k : κ)
    (f : α → α) : lookupA (updA l k f) k = (lookupA l k).map f := by
  induction l with
  | nil => rfl
  | cons q t ih =>
    obtain ⟨k0, a⟩ := q
    by_cases h : k0 = k
    · subst h
      simp [updA, lookupA]
    · simp [updA, lookupA, h, ih]

theorem lookupA_updA_ne {κ α : Type} [DecidableEq κ] (l : List (κ × α)) (k k' : κ)
    (f : α → α) (h : k' ≠ k) : lookupA (updA l k f) k' = lookupA l k' := by
  induction l with
  | nil => rfl
  | cons q t ih =>
    obtain ⟨k0, a⟩ := q
    by_cases h0 : k0 = k
    · subst h0
      simp [updA, lookupA, Ne.symm h, ih]
    · by_cases h1 : k0 = k' <;> simp [updA, lookupA, h0, h1, h, ih]

/-- Every entry of `updA l k f` arises from an entry of `l`, touched only at
key `k`. -/
theorem mem_updA {κ α : Type} [DecidableEq κ] {l : List (κ × α)} {k : κ}
    {f : α → α} {q : κ × α} (hq : q ∈ updA l k f) :
    ∃ q0 ∈ l, q = if q0.1 = k then (q0.1, f q0.2) else q0 := by
  induction l with
  | nil => simp [updA] at hq
  | cons hd t ih =>
    obtain ⟨k0, a⟩ := hd
    by_cases h : k0 = k
    · subst h
      simp only [updA, if_pos rfl] at hq
      rcases List.mem_cons.mp hq with h1 | h1
      · exact ⟨(k0, a), List.mem_cons_self _ _, by simp [h1]⟩
      · obtain ⟨q0, hq0, he⟩ := ih h1
        exact ⟨q0, List.mem_cons_of_mem _ hq0, he⟩
    · simp only [updA, if_neg h] at hq
      rcases List.mem_cons.mp hq with h1 | h1
      · exact ⟨(k0, a), List.mem_cons_self _ _, by simp [h1, h]⟩
      · obtain ⟨q0, hq0, he⟩ := ih h1
        exact ⟨q0, List.mem_cons_of_mem _ hq0, he⟩

theorem lookupA_append_right {κ α : Type} [DecidableEq κ] (l : List (κ × α))
    (k : κ) (a : α) (h : lookupA l k = none) :
    lookupA (l ++ [(k, a)]) k = some a := by
  induction l with
  | nil => simp [lookupA]
  | cons q t ih =>
    obtain ⟨k0, b⟩ := q
    by_cases h0 : k0 = k
    · simp [lookupA, h0] at h
    · simp [lookupA, h0] at h ⊢
      exact ih h

theorem lookupA_insA_self {κ α : Type} [DecidableEq κ] (l : List (κ × α)) (k : κ)
    (a : α) : lookupA (insA l k a) k = some a := by
  unfold insA
  by_cases h : (lookupA l k).isSome
  · obtain ⟨b, hb⟩ := Option.isSome_iff_exists.mp h
    simp [h, lookupA_updA_self, hb]
  · have : lookupA l k = none := Option.not_isSome_iff_eq_none.mp h
    simp [h, lookupA_append_right l k a this]

/-- The recursive `updA` agrees with a pointwise map over the list. -/
theorem updA_eq_map {κ α : Type} [DecidableEq κ] (l : List (κ × α)) (k : κ)
    (f : α → α) :
    updA l k f = l.map (fun q => if q.1 = k then (q.1, f q.2) else q) := by
  induction l with
  | nil => rfl
  | cons q t ih =>
    obtain ⟨k0, a⟩ := q
    by_cases h : k0 = k
    · subst h
      simp [updA, ih]
    · simp [updA, h, ih]

theorem keys_updA {κ α : Type} [DecidableEq κ] (l : List (κ × α)) (k : κ)
    (f : α → α) : (updA l k f).map Prod.fst = l.map Prod.fst := by
  induction l with
  | nil => rfl
  | cons q t ih =>
    obtain ⟨k0, a⟩ := q
    by_cases h : k0 = k
    · subst h
      simp [updA, ih]
    · simp [updA, h, ih]

theorem value_eq_of_lookupA_nodup {κ α : Type} [DecidableEq κ]
    {l : List (κ × α)} {k : κ} {a : α} (hN : (l.map Prod.fst).Nodup)
    (hl : lookupA l k = some a) {q : κ × α} (hq : q ∈ l) (hk : q.1 = k) :
    q.2 = a := by
  induction l with
  | nil => simp at hq
  | cons hd t ih =>
    obtain ⟨k0, b⟩ := hd
    simp only [List.map_cons, List.nodup_cons] at hN
    rcases List.mem_cons.mp hq with h | h
    · subst h
      simp only at hk
      subst hk
      simp [lookupA] at hl
      exact hl
    · by_cases h0 : k0 = k
      · subst h0
        exfalso
        exact hN.1 (by simpa [hk] using List.mem_map_of_mem Prod.fst h)
      · simp [lookupA, h0] at hl
        exact ih hN.2 hl h

/-! ## Engine invariants (finish ranks, coin accounting) -/

/-- Rank bookkeeping over a player list: a positive `finishRank` exactly on
the players that reached the goal, every rank below `nextFinishRank`, and no
positive rank held twice. -/
def rankOkList (l : List (Int × PlayerState)) (next : Int) : Prop :=
  1 ≤ next ∧
  (∀ q ∈ l, (0 < q.2.finishRank ↔ q.2.reachedGoal = true)) ∧
  (∀ q ∈ l, q.2.finishRank < next) ∧
  l.Pairwise (fun a b =>
    0 < a.2.finishRank → 0 < b.2.finishRank → a.2.finishRank ≠ b.2.finishRank)

/-- Player-map keys are distinct (true of `std::map` by construction). -/
def KeysNodup (s : GameState) : Prop := (s.players.map Prod.fst).Nodup

/-- Coin-pool accounting: the collected-bit vector tracks the coin list and
`remainingCoins` counts the clear bits. -/
def CoinOk (s : GameState) : Prop :=
  s.coinCollected.length = s.coinPositions.length ∧
  s.remainingCoins = (s.coinPositions.length : Int) - (s.coinCollected.count true : Int)

/-- The conjunction of the engine invariants established by `Initialize` and
preserved by every public operation. -/
def EngineInv (s : GameState) : Prop :=
  KeysNodup s ∧ rankOkList s.players s.nextFinishRank ∧ CoinOk s

theorem rankOkList_map (l : List (Int × PlayerState)) (next : Int)
    (g : Int × PlayerState → Int × PlayerState)
    (hg : ∀ q ∈ l, (g q).2.finishRank = q.2.finishRank ∧
      (g q).2.reachedGoal = q.2.reachedGoal)
    (h : rankOkList l next) : rankOkList (l.map g) next := by
  obtain ⟨h1, h2, h3, h4⟩ := h
  refine ⟨h1, ?_, ?_, ?_⟩
  · intro q hq
    obtain ⟨q0, hq0, rfl⟩ := List.mem_map.mp hq
    rw [(hg q0 hq0).1, (hg q0 hq0).2]
    exact h2 q0 hq0
  · intro q hq
    obtain ⟨q0, hq0, rfl⟩ := List.mem_map.mp hq
    rw [(hg q0 hq0).1]
    exact h3 q0 hq0
  · rw [List.pairwise_map]
    refine List.Pairwise.imp_of_mem ?_ h4
    intro a b ha hb hab
    rw [(hg a ha).1, (hg b hb).1]
    exact hab

theorem rankOkList_sublist {l m : List (Int × PlayerState)} {next : Int}
    (hs : m.Sublist l) (h : rankOkList l next) : rankOkList m next := by
  obtain ⟨h1, h2, h3, h4⟩ := h
  exact ⟨h1, fun q hq => h2 q (hs.mem hq), fun q hq => h3 q (hs.mem hq),
    h4.sublist hs⟩

/-- Values the function leaves alone keep the rank bookkeeping: the common
case of `setPlayer` with a record whose rank fields are unchanged. -/
theorem rankOkList_updA (l : List (Int × PlayerState)) (next : Int) (pid : Int)
    (p p' : PlayerState) (hN : (l.map Prod.fst).Nodup)
    (hl : lookupA l pid = some p)
    (hr : p'.finishRank = p.finishRank) (hgoal : p'.reachedGoal = p.reachedGoal)
    (h : rankOkList l next) :
    rankOkList (updA l pid (fun _ => p')) next := by
  rw [updA_eq_map]
  refine rankOkList_map l next _ ?_ h
  intro q hq
  by_cases hk : q.1 = pid
  · have hv := value_eq_of_lookupA_nodup hN hl hq hk
    simp [hk, hv, hr, hgoal]
  · simp [hk]

theorem keysNodup_setPlayer (s : GameState) (pid : Int) (p : PlayerState)
    (h : KeysNodup s) : KeysNodup (setPlayer s pid p) := by
  show ((updA s.players pid (fun _ => p)).map Prod.fst).Nodup
  rw [keys_updA]
  exact h

theorem rankOkList_updA_pointwise (l : List (Int × PlayerState)) (next : Int)
    (pid : Int) (f : PlayerState → PlayerState)
    (hf : ∀ a, (f a).finishRank = a.finishRank ∧ (f a).reachedGoal = a.reachedGoal)
    (h : rankOkList l next) : rankOkList (updA l pid f) next := by
  rw [updA_eq_map]
  refine rankOkList_map l next _ ?_ h
  intro q _
  by_cases hk : q.1 = pid <;> simp [hk, hf q.2]

/-- `CoinOk` only looks at the coin fields. -/
theorem CoinOk_of_fields {s t : GameState}
    (hp : t.coinPositions = s.coinPositions)
    (hc : t.coinCollected = s.coinCollected)
    (hr : t.remainingCoins = s.remainingCoins) (h : CoinOk s) : CoinOk t := by
  unfold CoinOk at h ⊢
  rw [hp, hc, hr]
  exact h

theorem engineInv_setPlayer {s : GameState} {pid : Int} {p p' : PlayerState}
    (h : EngineInv s) (hl : lookupA s.players pid = some p)
    (hr : p'.finishRank = p.finishRank) (hg : p'.reachedGoal = p.reachedGoal) :
    EngineInv (setPlayer s pid p') := by
  obtain ⟨hN, hRank, hCoin⟩ := h
  refine ⟨keysNodup_setPlayer s pid p' hN, ?_, ?_⟩
  · exact rankOkList_updA s.players s.nextFinishRank pid p p' hN hl hr hg hRank
  · exact CoinOk_of_fields rfl rfl rfl hCoin

theorem lookupA_setPlayer_self (s : GameState) (pid : Int) (p' : PlayerState) :
    lookupA (setPlayer s pid p').players pid = (lookupA s.players pid).map (fun _ => p') := by
  exact lookupA_updA_self s.players pid (fun _ => p')

theorem engineInv_RespawnPlayer (s : GameState) (pid : Int) (cands : List Cell)
    (h : EngineInv s) : EngineInv (RespawnPlayer s pid cands) := by
  unfold RespawnPlayer
  cases hl : lookupA s.players pid with
  | none => exact h
  | some p =>
    cases hc : FindRandomSpawnPoint s cands with
    | none => exact h
    | some c => exact engineInv_setPlayer h hl rfl rfl

theorem engineInv_ApplySpeedPotion (s : GameState) (pid : Int) (now : Int)
    (h : EngineInv s) : EngineInv (ApplySpeedPotion s pid now) := by
  unfold ApplySpeedPotion
  cases hl : lookupA s.players pid with
  | none => exact h
  | some p => exact engineInv_setPlayer h hl rfl rfl

theorem engineInv_ApplyCompass (s : GameState) (pid : Int)
    (h : EngineInv s) : EngineInv (ApplyCompass s pid) := by
  unfold ApplyCompass
  cases hl : lookupA s.players pid with
  | none => exact h
  | some p => exact engineInv_setPlayer h hl rfl rfl

theorem engineInv_ApplyHammer (s : GameState) (pid : Int) (tpos : Cell) (now : Int)
    (h : EngineInv s) : EngineInv (ApplyHammer s pid tpos now) := by
  obtain ⟨hN, hRank, hCoin⟩ := h
  unfold ApplyHammer
  dsimp only
  split
  · exact ⟨hN, hRank, CoinOk_of_fields rfl rfl rfl hCoin⟩
  · exact ⟨hN, hRank, hCoin⟩

theorem engineInv_ApplySlowTrap (s : GameState) (pid : Int) (tpos : Cell) (now : Int)
    (h : EngineInv s) : EngineInv (ApplySlowTrap s pid tpos now) := by
  obtain ⟨hN, hRank, hCoin⟩ := h
  exact ⟨hN, hRank, CoinOk_of_fields rfl rfl rfl hCoin⟩

theorem engineInv_ApplySwapItem (s : GameState) (pid tpid : Int)
    (h : EngineInv s) : EngineInv (ApplySwapItem s pid tpid) := by
  unfold ApplySwapItem
  cases hl1 : lookupA s.players pid with
  | none => exact h
  | some p1 =>
    cases hl2 : lookupA s.players tpid with
    | none => exact h
    | some p2 =>
      have h1 : EngineInv (setPlayer s pid { p1 with x := p2.x, y := p2.y, z := p2.z }) :=
        engineInv_setPlayer h hl1 rfl rfl
      by_cases he : tpid = pid
      · subst he
        have : lookupA (setPlayer s tpid { p1 with x := p2.x, y := p2.y, z := p2.z }).players tpid
            = some { p1 with x := p2.x, y := p2.y, z := p2.z } := by
          rw [lookupA_setPlayer_self, hl1]
          rfl
        refine engineInv_setPlayer h1 this ?_ ?_
        · have : p2 = p1 := by rw [hl1] at hl2; exact (Option.some.inj hl2).symm
          rw [this]
        · have : p2 = p1 := by rw [hl1] at hl2; exact (Option.some.inj hl2).symm
          rw [this]
      · have : lookupA (setPlayer s pid { p1 with x := p2.x, y := p2.y, z := p2.z }).players tpid
            = some p2 := by
          unfold setPlayer
          rw [lookupA_updA_ne _ _ _ _ he]
          exact hl2
        exact engineInv_setPlayer h1 this rfl rfl

theorem engineInv_ApplyKillSword (s : GameState) (pid tpid : Int) (cands : List Cell)
    (h : EngineInv s) : EngineInv (ApplyKillSword s pid tpid cands) := by
  unfold ApplyKillSword
  cases hl : lookupA s.players tpid with
  | none => exact h
  | some t =>
    by_cases ha : t.isAlive
    · simp only [ha, Bool.not_true, Bool.false_eq_true, if_false]
      exact engineInv_RespawnPlayer _ _ _ (engineInv_setPlayer h hl rfl rfl)
    · simp only [Bool.not_eq_true] at ha
      simp only [ha, Bool.not_false, if_true]
      exact h

theorem engineInv_updA_pointwise (s : GameState) (pid : Int)
    (f : PlayerState → PlayerState)
    (hf : ∀ a, (f a).finishRank = a.finishRank ∧ (f a).reachedGoal = a.reachedGoal)
    (h : EngineInv s) : EngineInv { s with players := updA s.players pid f } := by
  obtain ⟨hN, hRank, hCoin⟩ := h
  refine ⟨?_, ?_, CoinOk_of_fields rfl rfl rfl hCoin⟩
  · show ((updA s.players pid f).map Prod.fst).Nodup
    rw [keys_updA]
    exact hN
  · exact rankOkList_updA_pointwise s.players s.nextFinishRank pid f hf hRank

theorem engineInv_CheckPlayerReachedGoal (s : GameState) (pid : Int)
    (h : EngineInv s) : EngineInv (CheckPlayerReachedGoal s pid).2 := by
  obtain ⟨hN, hRank, hCoin⟩ := h
  unfold CheckPlayerReachedGoal
  cases hl : lookupA s.players pid with
  | none => exact ⟨hN, hRank, hCoin⟩
  | some p =>
    by_cases hg : p.reachedGoal
    · simp only [hg, if_pos, if_true]
      exact ⟨hN, hRank, hCoin⟩
    · simp only [hg, if_false, Bool.false_eq_true]
      obtain ⟨h1, h2, h3, h4⟩ := hRank
      show EngineInv { s with
        players := updA s.players pid (fun _ => { p with
          reachedGoal := true
          finishRank := s.nextFinishRank
          coins := p.coins + CalculateCoinReward s.nextFinishRank })
        nextFinishRank := s.nextFinishRank + 1
        finishedPlayersCount := s.finishedPlayersCount + 1 }
      refine ⟨?_, ⟨?_, ?_, ?_, ?_⟩, CoinOk_of_fields rfl rfl rfl hCoin⟩
      · show ((updA s.players pid _).map Prod.fst).Nodup
        rw [keys_updA]
        exact hN
      · show 1 ≤ s.nextFinishRank + 1
        omega
      · intro q hq
        obtain ⟨q0, hq0, he⟩ := mem_updA hq
        by_cases hk : q0.1 = pid
        · subst he
          rw [if_pos hk]
          refine ⟨fun _ => rfl, fun _ => ?_⟩
          show 0 < s.nextFinishRank
          omega
        · subst he
          rw [if_neg hk]
          exact h2 q0 hq0
      · intro q hq
        obtain ⟨q0, hq0, he⟩ := mem_updA hq
        by_cases hk : q0.1 = pid
        · subst he
          rw [if_pos hk]
          show s.nextFinishRank < s.nextFinishRank + 1
          omega
        · subst he
          rw [if_neg hk]
          show q0.2.finishRank < s.nextFinishRank + 1
          have := h3 q0 hq0
          omega
      · rw [updA_eq_map, List.pairwise_map]
        have hKeys : s.players.Pairwise (fun a b => a.1 ≠ b.1) :=
          List.pairwise_map.mp hN
        refine List.Pairwise.imp_of_mem ?_ (h4.and hKeys)
        intro a b ha hb hab
        obtain ⟨hR, hK⟩ := hab
        by_cases hka : a.1 = pid <;> by_cases hkb : b.1 = pid
        · exact absurd (hka.trans hkb.symm) hK
        · have hrb := h3 b hb
          rw [if_pos hka, if_neg hkb]
          intro _ _
          show s.nextFinishRank ≠ b.2.finishRank
          omega
        · have hra := h3 a ha
          rw [if_neg hka, if_pos hkb]
          intro _ _
          show a.2.finishRank ≠ s.nextFinishRank
          omega
        · rw [if_neg hka, if_neg hkb]
          exact hR

theorem keys_map_values (l : List (Int × PlayerState))
    (f : Int × PlayerState → PlayerState) :
    (l.map (fun q => (q.1, f q))).map Prod.fst = l.map Prod.fst := by
  induction l with
  | nil => rfl
  | cons q t ih => simp [ih]

theorem count_true_set (l : List Bool) (n : Nat) (hn : n < l.length)
    (hv : l.getD n false = false) :
    (l.set n true).count true = l.count true + 1 := by
  induction l generalizing n with
  | nil => simp at hn
  | cons b t ih =>
    cases n with
    | zero =>
      simp only [List.getD_cons_zero] at hv
      subst hv
      simp [List.count_cons]
    | succ m =>
      simp only [List.length_cons, Nat.succ_lt_succ_iff] at hn
      simp only [List.getD_cons_succ] at hv
      simp [List.count_cons, ih m hn hv]
      omega

theorem engineInv_MovePlayer (s : GameState) (pid : Int) (dir : MoveDirection)
    (sr cr : ℚ) (h : EngineInv s) : EngineInv (MovePlayer s pid dir sr cr).2 := by
  unfold MovePlayer
  cases hl : lookupA s.players pid with
  | none => exact h
  | some p =>
    dsimp only
    split
    · exact h
    · split
      · exact h
      · split
        · exact engineInv_CheckPlayerReachedGoal _ _ (engineInv_setPlayer h hl rfl rfl)
        · exact engineInv_setPlayer h hl rfl rfl

theorem engineInv_PurchaseItem (s : GameState) (pid : Int) (it : ItemType)
    (h : EngineInv s) : EngineInv (PurchaseItem s pid it).2 := by
  unfold PurchaseItem
  cases hl : lookupA s.players pid with
  | none => exact h
  | some p =>
    cases itemPrice it with
    | none => exact h
    | some price =>
      dsimp only
      split
      · exact engineInv_setPlayer h hl rfl rfl
      · exact h

theorem engineInv_UseItem (s : GameState) (pid : Int) (it : ItemType) (tpid : Int)
    (tpos : Cell) (now : Int) (cands : List Cell) (h : EngineInv s) :
    EngineInv (UseItem s pid it tpid tpos now cands).2 := by
  unfold UseItem
  cases hl : lookupA s.players pid with
  | none => exact h
  | some p =>
    dsimp only
    split
    · exact h
    · have hdec : ∀ (s1 : GameState), EngineInv s1 → EngineInv { s1 with players := updA s1.players pid (fun q => { q with inventory := invAdd q.inventory it (-1) }) } :=
        fun s1 h1 => engineInv_updA_pointwise s1 pid _ (fun a => ⟨rfl, rfl⟩) h1
      cases it with
      | SPEED_POTION => exact hdec _ (engineInv_ApplySpeedPotion s pid now h)
      | COMPASS => exact hdec _ (engineInv_ApplyCompass s pid h)
      | HAMMER => exact hdec _ (engineInv_ApplyHammer s pid tpos now h)
      | KILL_SWORD =>
        by_cases ht : tpid ≠ -1
        · simp only [if_pos ht]
          exact hdec _ (engineInv_ApplyKillSword s pid tpid cands h)
        · simp only [if_neg ht]
          exact hdec _ h
      | SLOW_TRAP => exact hdec _ (engineInv_ApplySlowTrap s pid tpos now h)
      | SWAP_ITEM =>
        by_cases ht : tpid ≠ -1
        · simp only [if_pos ht]
          exact hdec _ (engineInv_ApplySwapItem s pid tpid h)
        · simp only [if_neg ht]
          exact hdec _ h
      | COIN => exact h

theorem engineInv_CollectCoin (s : GameState) (pid cid : Int) (h : EngineInv s) :
    EngineInv (CollectCoin s pid cid).2 := by
  unfold CollectCoin
  split
  · exact h
  · rename_i hcond
    push_neg at hcond
    obtain ⟨hc0, hclen, hcfalse⟩ := hcond
    cases hl : lookupA s.players pid with
    | none => exact h
    | some p =>
      obtain ⟨hN, hRank, hC1, hC2⟩ := h
      refine ⟨?_, ?_, ?_, ?_⟩
      · show ((updA s.players pid _).map Prod.fst).Nodup
        rw [keys_updA]
        exact hN
      · exact rankOkList_updA s.players s.nextFinishRank pid p _ hN hl rfl rfl hRank
      · show (s.coinCollected.set cid.toNat true).length = s.coinPositions.length
        rw [List.length_set]
        exact hC1
      · show s.remainingCoins - 1 =
          (s.coinPositions.length : Int) - ((s.coinCollected.set cid.toNat true).count true : Int)
        have hlt : cid.toNat < s.coinCollected.length := by omega
        have hfalse : s.coinCollected.getD cid.toNat false = false := by
          simpa using hcfalse
        rw [count_true_set s.coinCollected cid.toNat hlt hfalse]
        push_cast
        omega

theorem engineInv_AddPlayer (s : GameState) (pid : Int) (sp : Cell)
    (h : EngineInv s) : EngineInv (AddPlayer s pid sp).2 := by
  unfold AddPlayer
  cases hl : lookupA s.players pid with
  | some p => exact h
  | none =>
    obtain ⟨hN, ⟨h1, h2, h3, h4⟩, hCoin⟩ := h
    have hnotin : pid ∉ s.players.map Prod.fst := lookupA_eq_none_iff.mp hl
    refine ⟨?_, ⟨h1, ?_, ?_, ?_⟩, CoinOk_of_fields rfl rfl rfl hCoin⟩
    · show ((s.players ++ [(pid, _)]).map Prod.fst).Nodup
      rw [List.map_append]
      rw [List.nodup_append]
      refine ⟨hN, List.nodup_singleton _, ?_⟩
      intro a hain hbin
      simp at hbin
      subst hbin
      exact hnotin hain
    · intro q hq
      rcases List.mem_append.mp hq with hq | hq
      · exact h2 q hq
      · simp at hq
        subst hq
        simp
    · intro q hq
      rcases List.mem_append.mp hq with hq | hq
      · exact h3 q hq
      · simp at hq
        subst hq
        show (0 : Int) < s.nextFinishRank
        omega
    · rw [List.pairwise_append]
      refine ⟨h4, List.pairwise_singleton _ _, ?_⟩
      intro a ha b hb
      simp at hb
      subst hb
      intro _ hpos
      exact absurd hpos (by simp)

theorem engineInv_RemovePlayer (s : GameState) (pid : Int) (h : EngineInv s) :
    EngineInv (RemovePlayer s pid).2 := by
  obtain ⟨hN, hRank, hCoin⟩ := h
  refine ⟨?_, ?_, CoinOk_of_fields rfl rfl rfl hCoin⟩
  · show ((s.players.filter _).map Prod.fst).Nodup
    exact hN.sublist ((List.filter_sublist _).map Prod.fst)
  · exact rankOkList_sublist (List.filter_sublist _) hRank

theorem engineInv_Update (s : GameState) (now : Int) (h : EngineInv s) :
    EngineInv (Update s now) := by
  obtain ⟨hN, hRank, hCoin⟩ := h
  refine ⟨?_, ?_, CoinOk_of_fields rfl rfl rfl hCoin⟩
  · show ((s.players.map fun q => (q.1, CheckSpeedBoostExpiry now q.2)).map Prod.fst).Nodup
    rw [keys_map_values]
    exact hN
  · refine rankOkList_map s.players s.nextFinishRank _ ?_ hRank
    intro q _
    unfold CheckSpeedBoostExpiry
    split <;> exact ⟨rfl, rfl⟩

theorem engineInv_GiveItem (s : GameState) (pid : Int) (it : ItemType) (n : Int)
    (h : EngineInv s) : EngineInv (GiveItem s pid it n).2 := by
  unfold GiveItem
  cases hl : lookupA s.players pid with
  | none => exact h
  | some p => exact engineInv_setPlayer h hl rfl rfl

theorem engineInv_TeleportPlayer (s : GameState) (pid : Int) (x y z : ℚ)
    (h : EngineInv s) : EngineInv (TeleportPlayer s pid x y z).2 := by
  unfold TeleportPlayer
  cases hl : lookupA s.players pid with
  | none => exact h
  | some p =>
    dsimp only
    split
    · exact h
    · exact engineInv_setPlayer h hl rfl rfl

theorem engineInv_KillPlayer (s : GameState) (pid : Int) (cands : List Cell)
    (h : EngineInv s) : EngineInv (KillPlayer s pid cands).2 := by
  unfold KillPlayer
  cases hl : lookupA s.players pid with
  | none => exact h
  | some p =>
    dsimp only
    split
    · exact h
    · exact engineInv_RespawnPlayer _ _ _ (engineInv_setPlayer h hl rfl rfl)

theorem engineInv_SetPlayerCoins (s : GameState) (pid c : Int) (h : EngineInv s) :
    EngineInv (SetPlayerCoins s pid c).2 := by
  unfold SetPlayerCoins
  cases hl : lookupA s.players pid with
  | none => exact h
  | some p => exact engineInv_setPlayer h hl rfl rfl

theorem count_true_replicate_false (n : Nat) :
    (List.replicate n false).count true = 0 := by
  induction n with
  | zero => rfl
  | succ m ih => simp [List.replicate_succ, List.count_cons, ih]

theorem engineInv_ResetGameState (s : GameState) (h : EngineInv s) :
    EngineInv (ResetGameState s) := by
  obtain ⟨hN, ⟨h1, h2, h3, h4⟩, hC1, hC2⟩ := h
  unfold ResetGameState
  refine ⟨?_, ⟨le_refl 1, ?_, ?_, ?_⟩, ?_, ?_⟩
  · show ((s.players.map _).map Prod.fst).Nodup
    rw [keys_map_values]
    exact hN
  · intro q hq
    obtain ⟨q0, hq0, rfl⟩ := List.mem_map.mp hq
    show 0 < (0 : Int) ↔ false = true
    simp
  · intro q hq
    obtain ⟨q0, hq0, rfl⟩ := List.mem_map.mp hq
    show (0 : Int) < 1
    omega
  · show List.Pairwise _ (s.players.map _)
    rw [List.pairwise_map]
    refine List.Pairwise.imp_of_mem ?_ h4
    intro a b _ _ _
    intro hpos
    exact absurd hpos (by simp)
  · show (List.replicate s.coinCollected.length false).length = s.coinPositions.length
    rw [List.length_replicate]
    exact hC1
  · show (s.coinPositions.length : Int) =
      (s.coinPositions.length : Int) - ((List.replicate s.coinCollected.length false).count true : Int)
    rw [count_true_replicate_false]
    simp

theorem engineInv_Initialize (wall0 : Int → Int → Int → Bool)
    (coinPositions : List Cell) (startPos endPos : Cell) :
    EngineInv (Initialize wall0 coinPositions startPos endPos) := by
  refine ⟨?_, ⟨le_refl 1, ?_, ?_, ?_⟩, ?_, ?_⟩
  · exact List.nodup_nil
  · intro q hq
    simp [Initialize] at hq
  · intro q hq
    simp [Initialize] at hq
  · exact List.Pairwise.nil
  · show (List.replicate coinPositions.length false).length = coinPositions.length
    rw [List.length_replicate]
  · show (coinPositions.length : Int) =
      (coinPositions.length : Int) - ((List.replicate coinPositions.length false).count true : Int)
    rw [count_true_replicate_false]
    simp

theorem engineInv_applyOp (s : GameState) (op : GameOp) (h : EngineInv s) :
    EngineInv (applyOp s op) := by
  cases op with
  | addPlayer pid sp => exact engineInv_AddPlayer s pid sp h
  | removePlayer pid => exact engineInv_RemovePlayer s pid h
  | movePlayer pid dir sr cr => exact engineInv_MovePlayer s pid dir sr cr h
  | purchaseItem pid it => exact engineInv_PurchaseItem s pid it h
  | useItem pid it tpid tpos now cands => exact engineInv_UseItem s pid it tpid tpos now cands h
  | collectCoin pid cid => exact engineInv_CollectCoin s pid cid h
  | checkGoal pid => exact engineInv_CheckPlayerReachedGoal s pid h
  | respawn pid cands => exact engineInv_RespawnPlayer s pid cands h
  | tick now => exact engineInv_Update s now h
  | giveItem pid it n => exact engineInv_GiveItem s pid it n h
  | teleport pid x y z => exact engineInv_TeleportPlayer s pid x y z h
  | kill pid cands => exact engineInv_KillPlayer s pid cands h
  | setCoins pid c => exact engineInv_SetPlayerCoins s pid c h
  | reset => exact engineInv_ResetGameState s h

/-- Every reachable engine state satisfies the combined invariant. -/
theorem engineInv_of_Reachable {s : GameState} (h : Reachable s) : EngineInv s := by
  induction h with
  | init wall0 coinPositions startPos endPos =>
    exact engineInv_Initialize wall0 coinPositions startPos endPos
  | step s op _ ih => exact engineInv_applyOp s op ih

/-! ## Claim C1: authentication with a name only -/

/-- The surrogate fingerprint `client_<connId>` can never satisfy the strict
17-character MAC validation: either the length test fails, or the third
character is `i` rather than a `:` or `-` separator. -/
theorem validateMac_rejects_surrogate (clientId : Int) :
    ValidateMacAddress ("client_" ++ toString clientId) = false := by
  unfold ValidateMacAddress
  by_cases hlen : ("client_" ++ toString clientId).toList.length ≠ 17
  · rw [if_pos hlen]
  · rw [if_neg hlen]
    have h2 : ("client_" ++ toString clientId).toList[2]? = some 'i' := rfl
    rw [h2]
    dsimp only
    rw [if_pos (by decide)]

/-- Because the surrogate fingerprint is always rejected, `RegisterPlayer`
returns the empty id and leaves the registry untouched. -/
theorem registerPlayer_surrogate_fails (pm : PMState) (clientId : Int)
    (playerName freshId : String) (now : Int) :
    RegisterPlayer pm ("client_" ++ toString clientId) playerName freshId now
      = ("", pm) := by
  unfold RegisterPlayer
  rw [validateMac_rejects_surrogate clientId]
  rfl

/-- C1: the spec claims that an `auth` message carrying only a player name
leads to a fresh `playerId`, an `auth_success` reply with a `session_` token
and a `player_data` snapshot.  In the code, `RegisterPlayer` is indeed called
with the surrogate fingerprint `client_<connId>` and the name as cookie, but
the fingerprint always fails `ValidateMacAddress`, so registration yields the
empty id and the client receives `auth_failed` — for every registry state,
connection id and player name. -/
theorem auth_with_name_only_always_fails (pm : PMState) (clientId : Int)
    (playerName token freshId : String) (now epochSeconds : Int) :
    authMessageHandler pm clientId "" playerName token freshId now epochSeconds
      = (pm, [ServerMsg.authFailed "无法注册玩家，请重试" "failed"]) := by
  unfold authMessageHandler
  rw [if_pos (Or.inl rfl)]
  rw [registerPlayer_surrogate_fails pm clientId playerName freshId now]
  rfl

/-! ## Claim C2: hammer wall repair timing -/

/-- All-wall maze used by the hammer scenario. -/
def c2Wall : Int → Int → Int → Bool := fun _ _ _ => true

/-- Engine state with one player holding a hammer. -/
def c2s : GameState :=
  (GiveItem (AddPlayer (Initialize c2Wall [] (1, 1, 1) (5, 5, 5)) 1 (1, 1, 1)).2
    1 .HAMMER 1).2

/-- State after breaking the wall cell (2,0,3) at time t = 0. -/
def c2broken : GameState := (UseItem c2s 1 .HAMMER (-1) (2, 0, 3) 0 []).2

/-- C2: a wall broken by the hammer at t = 0 s gets `repairAt = 60 s`
recorded, but `Update` compares `now - repairAt > 60`, so ticking at
`now = 60 s` (the recorded repair instant) and even at `now = 120 s` leaves
the cell broken; it only reverts at `now = 121 s`.  This contradicts the
claim that `Tick(now)` with `now ≥ t+60 s` restores the wall. -/
theorem hammer_repair_happens_only_after_121_seconds :
    (UseItem c2s 1 .HAMMER (-1) (2, 0, 3) 0 []).1 = true ∧
    c2broken.wall 0 2 3 = false ∧
    lookupA c2broken.wallRepairTimes (2, 0, 3) = some 60 ∧
    (Update c2broken 60).wall 0 2 3 = false ∧
    (Update c2broken 120).wall 0 2 3 = false ∧
    (Update c2broken 121).wall 0 2 3 = true := by
  refine ⟨by decide, by decide, by decide, by decide, by decide, by decide⟩

/-! ## Claim C5: frames with FIN=0 or a non-text opcode -/

/-- One established connection with a completed handshake. -/
def c5clients : List (Int × ClientConnection) :=
  [(7, { clientId := 7, ipAddress := "127.0.0.1", handshakeCompleted := true })]

/-- C5 counterexample: a frame with FIN=0 (bytes `0x01 0x00`) is a decode
failure, but the connection is not closed and the dispatcher is not
notified — the frame is silently dropped with a log warning, contradicting
the claimed protocol-error close and disconnect notification. -/
theorem fin0_frame_silently_dropped :
    decodeWebSocketFrame [0x01, 0x00] = "" ∧
    handleClientData c5clients 7 (.bytes [0x01, 0x00]) =
      { clients := c5clients, callbackMessages := [], socketClosed := false } := by
  refine ⟨by decide, by decide⟩

/-- C5 amended: receiving a frame whose first byte has FIN clear or a
non-text opcode (close, ping and pong included — they are not answered
either) yields an empty decode, after which `handleClientData` keeps the
connection table unchanged, closes nothing and passes nothing to the
dispatcher. -/
theorem decode_failure_keeps_connection (clients : List (Int × ClientConnection))
    (clientId : Int) (data : List Nat)
    (h : data.getD 0 0 &&& 0x80 = 0 ∨ data.getD 0 0 &&& 0x0F ≠ 1) :
    decodeWebSocketFrame data = "" ∧
    handleClientData clients clientId (.bytes data) =
      { clients := clients, callbackMessages := [], socketClosed := false } := by
  have hdec : decodeWebSocketFrame data = "" := by
    unfold decodeWebSocketFrame
    by_cases hlen : data.length < 2
    · rw [if_pos hlen]
    · rw [if_neg hlen]
      dsimp only
      rw [if_pos h]
  refine ⟨hdec, ?_⟩
  unfold handleClientData
  cases hc : lookupA clients clientId with
  | none => rfl
  | some conn =>
    dsimp only
    by_cases hh : conn.handshakeCompleted = true
    · rw [if_pos hh, hdec]
      rfl
    · rw [if_neg hh]

/-- Witness for the C5 theorem: a close frame (opcode 8) on an empty
connection table is dropped without any close or notification. -/
theorem decode_failure_keeps_connection_witness :
    decodeWebSocketFrame [0x88, 0x00] = "" ∧
    handleClientData [] 3 (.bytes [0x88, 0x00]) =
      { clients := [], callbackMessages := [], socketClosed := false } :=
  decode_failure_keeps_connection [] 3 [0x88, 0x00] (by decide)

/-! ## Claim C6: the operator `coin` command -/

/-- Registry holding the online player `PLAYER_123456`. -/
def c6pm : PMState :=
  { players := [("PLAYER_123456",
      { defaultPlayerData with playerId := "PLAYER_123456", isOnline := true })]
    macToPlayerId := []
    cookieToPlayerId := []
    onlinePlayers := ["PLAYER_123456"] }

/-- Command-system state: default admins, the online player, a fresh engine. -/
def c6cs : CSState :=
  { game := Initialize (fun _ _ _ => true) [] (1, 1, 1) (5, 5, 5)
    pm := c6pm
    admins := defaultAdmins
    commandHistory := [] }

/-- C6: the spec claims `coin PLAYER_123456 100` succeeds and mirrors the
amount into the durable record.  In the code, `ConvertPlayerIdToInt` applies
`std::stoi` to the id; every canonical `PLAYER_<digits>` id starts with `P`,
so `stoi` throws and the command always fails with an id-format error, even
for an admin executor and an online player. -/
theorem coin_command_rejects_canonical_id :
    CheckPermission c6cs "root" .ADMIN = true ∧
    IsValidPlayer c6cs "PLAYER_123456" = true ∧
    ConvertPlayerIdToInt "PLAYER_123456" = -1 ∧
    (ExecuteCommand c6cs "coin PLAYER_123456 100" "root" []).1 =
      { success := false, message := "Invalid player ID format: PLAYER_123456" } := by
  refine ⟨by decide, by decide, by decide, by decide⟩

/-! ## Claim C3: UseItem decrement discipline -/

/-- Engine state with one player holding one kill sword. -/
def c3s : GameState :=
  (GiveItem (AddPlayer (Initialize (fun _ _ _ => true) [] (1, 1, 1) (5, 5, 5)) 1 (1, 1, 1)).2
    1 .KILL_SWORD 1).2

/-- C3 counterexample: `UseItem(KILL_SWORD)` with no target (target id -1)
returns success and decrements the kill-sword counter from 1 to 0, instead
of failing with `INVALID_TARGET` and leaving the inventory unchanged. -/
theorem useItem_killSword_no_target_still_decrements :
    (lookupA c3s.players 1).map (fun p => invGet p.inventory .KILL_SWORD) = some 1 ∧
    (UseItem c3s 1 .KILL_SWORD (-1) (-1, -1, -1) 0 []).1 = true ∧
    (lookupA (UseItem c3s 1 .KILL_SWORD (-1) (-1, -1, -1) 0 []).2.players 1).map
      (fun p => invGet p.inventory .KILL_SWORD) = some 0 := by
  refine ⟨by decide, by decide, by decide⟩

/-- C3 amended: `UseItem` succeeds exactly when the player exists, owns the
item and the kind is usable (`COIN` hits the default case); on success the
counter is always decremented, whether or not the effect did anything.  In
particular a kill sword with no target performs no effect at all and still
succeeds with the counter decremented. -/
theorem useItem_decrements_even_without_target (s : GameState) (pid : Int)
    (it : ItemType) (tpid : Int) (tpos : Cell) (now : Int) (cands : List Cell) :
    ((UseItem s pid it tpid tpos now cands).1 = true ↔
      ∃ p, lookupA s.players pid = some p ∧ 0 < invGet p.inventory it ∧ it ≠ .COIN) ∧
    (UseItem s pid .KILL_SWORD (-1) tpos now cands =
      match lookupA s.players pid with
      | none => (false, s)
      | some p =>
        if invGet p.inventory .KILL_SWORD ≤ 0 then (false, s)
        else
          (true, { s with players := updA s.players pid (fun q => { q with inventory := invAdd q.inventory .KILL_SWORD (-1) }) })) := by
  constructor
  · unfold UseItem
    cases hl : lookupA s.players pid with
    | none =>
      dsimp only
      simp
    | some p =>
      dsimp only
      by_cases hinv : invGet p.inventory it ≤ 0
      · rw [if_pos hinv]
        constructor
        · intro hfalse
          simp at hfalse
        · rintro ⟨q, hq, hpos, _⟩
          cases Option.some.inj hq
          omega
      · rw [if_neg hinv]
        cases it with
        | COIN =>
          constructor
          · intro hfalse
            simp at hfalse
          · rintro ⟨q, _, _, hne⟩
            exact absurd rfl hne
        | SPEED_POTION =>
          exact ⟨fun _ => ⟨p, rfl, by omega, by decide⟩, fun _ => rfl⟩
        | COMPASS =>
          exact ⟨fun _ => ⟨p, rfl, by omega, by decide⟩, fun _ => rfl⟩
        | HAMMER =>
          exact ⟨fun _ => ⟨p, rfl, by omega, by decide⟩, fun _ => rfl⟩
        | KILL_SWORD =>
          exact ⟨fun _ => ⟨p, rfl, by omega, by decide⟩, fun _ => rfl⟩
        | SLOW_TRAP =>
          exact ⟨fun _ => ⟨p, rfl, by omega, by decide⟩, fun _ => rfl⟩
        | SWAP_ITEM =>
          exact ⟨fun _ => ⟨p, rfl, by omega, by decide⟩, fun _ => rfl⟩
  · unfold UseItem
    cases hl : lookupA s.players pid with
    | none => rfl
    | some p =>
      dsimp only
      by_cases hinv : invGet p.inventory .KILL_SWORD ≤ 0
      · rw [if_pos hinv]
        rw [if_pos hinv]
      · rw [if_neg hinv]
        rw [if_neg (show ¬((-1 : Int) ≠ -1) from fun hcon => hcon rfl)]
        rw [if_neg hinv]

/-- Witness for the amended C3 theorem at the concrete kill-sword state. -/
theorem useItem_decrement_witness :
    (UseItem c3s 1 .KILL_SWORD (-1) (-1, -1, -1) 0 []).1 = true :=
  (useItem_decrements_even_without_target c3s 1 .KILL_SWORD (-1) (-1, -1, -1) 0 []).1.mpr
    ⟨{ playerId := 1, x := 1, y := 1, z := 1, rotation := 0, isAlive := true,
       hasCompass := false, hasSpeedBoost := false, speedBoostEndTime := 0,
       coins := 0, inventory := { zeroInventory with KILL_SWORD := 1 },
       reachedGoal := false, finishRank := 0 },
     by decide, by decide, by decide⟩

/-! ## Claim C4: movement validity -/

/-- Maze with no walls at all (and, like every `GameLogic` maze, no stair
information — the engine has none). -/
def c4Wall : Int → Int → Int → Bool := fun _ _ _ => false

/-- One player standing at cell (1,0,1) of the no-wall maze. -/
def c4s : GameState :=
  (AddPlayer (Initialize c4Wall [] (1, 1, 1) (5, 5, 5)) 1 (1, 0, 1)).2

/-- The runtime record of that player. -/
def c4p : PlayerState :=
  { playerId := 1, x := 1, y := 0, z := 1, rotation := 0, isAlive := true,
    hasCompass := false, hasSpeedBoost := false, speedBoostEndTime := 0,
    coins := 0, inventory := zeroInventory, reachedGoal := false, finishRank := 0 }

/-- C4 counterexample: moving UP from an ordinary path cell succeeds — the
engine carries no stair data and `MovePlayer` never checks for stair pairs,
so vertical movement outside any stair pair does not fail as claimed. -/
theorem vertical_move_without_stairs_succeeds :
    (MovePlayer c4s 1 .UP 0 1).1 = true ∧
    (lookupA (MovePlayer c4s 1 .UP 0 1).2.players 1).map (fun p => p.y) =
      some (1 / 10) := by
  constructor
  · simp [MovePlayer, AddPlayer, Initialize, lookupA, moveDelta, moveSpeed,
      CheckCollision, roundToInt, mazeWidth, mazeHeight, mazeLayers, c4Wall, c4s]
    norm_num [Int.floor_eq_iff]
  · simp [MovePlayer, AddPlayer, Initialize, lookupA, moveDelta, moveSpeed,
      CheckCollision, roundToInt, mazeWidth, mazeHeight, mazeLayers, c4Wall, c4s,
      setPlayer, updA, CheckPlayerReachedGoal, truncToInt]
    norm_num [Int.floor_eq_iff]
    exact ⟨_, rfl, rfl⟩

/-- C4 amended: `MovePlayer` fails exactly when the player is missing, not
alive, or the rounded candidate cell is out of bounds or blocking
(`CheckCollision`); there is no stair condition of any kind.  On success the
position becomes the candidate and the goal check fires exactly when the
truncated candidate cell equals the end position. -/
theorem movePlayer_validity (s : GameState) (pid : Int) (dir : MoveDirection)
    (sr cr : ℚ) :
    (lookupA s.players pid = none → MovePlayer s pid dir sr cr = (false, s)) ∧
    (∀ p, lookupA s.players pid = some p →
      let d := moveDelta p dir sr cr
      let nx := p.x + d.1
      let ny := p.y + d.2.1
      let nz := p.z + d.2.2
      (p.isAlive = false → MovePlayer s pid dir sr cr = (false, s)) ∧
      (p.isAlive = true → CheckCollision s nx ny nz = true →
        MovePlayer s pid dir sr cr = (false, s)) ∧
      (p.isAlive = true → CheckCollision s nx ny nz = false →
        MovePlayer s pid dir sr cr = (true,
          if truncToInt nx = s.endPosition.1 ∧ truncToInt ny = s.endPosition.2.1 ∧
              truncToInt nz = s.endPosition.2.2 then
            (CheckPlayerReachedGoal (setPlayer s pid { p with x := nx, y := ny, z := nz }) pid).2
          else setPlayer s pid { p with x := nx, y := ny, z := nz }))) := by
  constructor
  · intro hl
    unfold MovePlayer
    rw [hl]
  · intro p hl
    dsimp only
    refine ⟨?_, ?_, ?_⟩
    · intro hal
      unfold MovePlayer
      rw [hl]
      dsimp only
      rw [if_pos (by simp [hal])]
    · intro hal hcol
      unfold MovePlayer
      rw [hl]
      dsimp only
      rw [if_neg (by simp [hal])]
      rw [if_pos hcol]
    · intro hal hcol
      unfold MovePlayer
      rw [hl]
      dsimp only
      rw [if_neg (by simp [hal])]
      rw [if_neg (by simp [hcol])]

/-- The UP move from (1,0,1) has a collision-free candidate cell. -/
theorem c4_up_candidate_free :
    CheckCollision c4s (c4p.x + (moveDelta c4p .UP 0 1).1)
      (c4p.y + (moveDelta c4p .UP 0 1).2.1)
      (c4p.z + (moveDelta c4p .UP 0 1).2.2) = false := by
  simp [CheckCollision, moveDelta, moveSpeed, c4p, roundToInt, mazeWidth,
    mazeHeight, mazeLayers, c4s, c4Wall, AddPlayer, Initialize, lookupA]
  norm_num [Int.floor_eq_iff]

/-- Witness for the amended C4 theorem: the success branch applies at the
concrete UP move. -/
theorem movePlayer_validity_witness : (MovePlayer c4s 1 .UP 0 1).1 = true := by
  have h := ((movePlayer_validity c4s 1 .UP 0 1).2 c4p (by decide)).2.2 (by decide)
    c4_up_candidate_free
  rw [h]

/-! ## Claim C7: respawn after Kill / KILL_SWORD -/

/-- One player who owns a compass, standing in a no-wall maze. -/
def c7s : GameState :=
  ApplyCompass
    ((AddPlayer (Initialize (fun _ _ _ => false) [] (1, 1, 1) (5, 5, 5)) 1 (1, 0, 1)).2) 1

/-- C7 counterexample: after `KillPlayer` the respawned player still has
`hasCompass = true` — the respawn clears only the speed boost, contradicting
the claim that both compass and speed boost are cleared. -/
theorem respawn_keeps_compass :
    (KillPlayer c7s 1 [(3, 3, 3)]).1 = true ∧
    (lookupA (KillPlayer c7s 1 [(3, 3, 3)]).2.players 1).map
      (fun p => (p.hasCompass, p.isAlive, p.hasSpeedBoost)) =
      some (true, true, false) := by
  refine ⟨by decide, by decide⟩

/-- C7 amended: killing an alive player (by the privileged `Kill` or by a
kill sword) respawns it at the drawn non-blocking cell with `alive := true`,
clears the speed boost, and preserves coins, inventory and `hasCompass`. -/
theorem kill_respawn_preserves_compass (s : GameState) (pid : Int)
    (cands : List Cell) (p : PlayerState) (c : Cell)
    (hl : lookupA s.players pid = some p) (ha : p.isAlive = true)
    (hc : FindRandomSpawnPoint s cands = some c) :
    ((KillPlayer s pid cands).1 = true ∧
      lookupA (KillPlayer s pid cands).2.players pid =
        some { p with x := (c.1 : ℚ), y := (c.2.1 : ℚ), z := (c.2.2 : ℚ), isAlive := true, hasSpeedBoost := false } ∧
      s.wall c.2.1 c.1 c.2.2 = false) ∧
    (∀ killer : Int,
      lookupA (ApplyKillSword s killer pid cands).players pid =
        some { p with x := (c.1 : ℚ), y := (c.2.1 : ℚ), z := (c.2.2 : ℚ), isAlive := true, hasSpeedBoost := false }) := by
  have hwall : s.wall c.2.1 c.1 c.2.2 = false := by
    have := List.find?_some hc
    simpa using this
  have hrespawn : RespawnPlayer (setPlayer s pid { p with isAlive := false }) pid cands
      = setPlayer (setPlayer s pid { p with isAlive := false }) pid
          { { p with isAlive := false } with x := (c.1 : ℚ), y := (c.2.1 : ℚ), z := (c.2.2 : ℚ), isAlive := true, hasSpeedBoost := false } := by
    unfold RespawnPlayer
    have h1 : lookupA (setPlayer s pid { p with isAlive := false }).players pid
        = some { p with isAlive := false } := by
      rw [lookupA_setPlayer_self, hl]
      rfl
    rw [h1]
    have h2 : FindRandomSpawnPoint (setPlayer s pid { p with isAlive := false }) cands
        = some c := hc
    rw [h2]
  have hlook : lookupA (RespawnPlayer (setPlayer s pid { p with isAlive := false }) pid cands).players pid
      = some { p with x := (c.1 : ℚ), y := (c.2.1 : ℚ), z := (c.2.2 : ℚ), isAlive := true, hasSpeedBoost := false } := by
    rw [hrespawn, lookupA_setPlayer_self, lookupA_setPlayer_self, hl]
    rfl
  have hkill : KillPlayer s pid cands
      = (true, RespawnPlayer (setPlayer s pid { p with isAlive := false }) pid cands) := by
    unfold KillPlayer
    rw [hl]
    dsimp only
    rw [if_neg (by simp [ha])]
  refine ⟨⟨?_, ?_, hwall⟩, ?_⟩
  · rw [hkill]
  · rw [hkill]
    exact hlook
  · intro killer
    have hsword : ApplyKillSword s killer pid cands
        = RespawnPlayer (setPlayer s pid { p with isAlive := false }) pid cands := by
      unfold ApplyKillSword
      rw [hl]
      dsimp only
      rw [if_neg (by simp [ha])]
    rw [hsword]
    exact hlook

/-- Witness for the amended C7 theorem at the concrete compass holder. -/
theorem kill_respawn_preserves_compass_witness :
    (KillPlayer c7s 1 [(3, 3, 3)]).1 = true ∧ c7s.wall 3 3 3 = false :=
  have h := kill_respawn_preserves_compass c7s 1 [(3, 3, 3)]
    { playerId := 1, x := 1, y := 0, z := 1, rotation := 0, isAlive := true,
      hasCompass := true, hasSpeedBoost := false, speedBoostEndTime := 0,
      coins := 0, inventory := zeroInventory, reachedGoal := false, finishRank := 0 }
    (3, 3, 3) (by decide) (by decide) (by decide)
  ⟨h.1.1, h.1.2.2⟩

/-! ## Claim C8: finish ranks -/

theorem checkGoal_assigns (s : GameState) (pid : Int) (p : PlayerState)
    (hl : lookupA s.players pid = some p) (hg : p.reachedGoal = false) :
    (CheckPlayerReachedGoal s pid).1 = true ∧
    lookupA (CheckPlayerReachedGoal s pid).2.players pid =
      some { p with reachedGoal := true, finishRank := s.nextFinishRank, coins := p.coins + CalculateCoinReward s.nextFinishRank } ∧
    (CheckPlayerReachedGoal s pid).2.nextFinishRank = s.nextFinishRank + 1 := by
  unfold CheckPlayerReachedGoal
  rw [hl]
  dsimp only
  rw [if_neg (by simp [hg])]
  refine ⟨rfl, ?_, rfl⟩
  show lookupA (setPlayer s pid _).players pid = _
  rw [lookupA_setPlayer_self, hl]
  rfl

/-- C8: in every reachable state, `finishRank > 0 ↔ reachedGoal`; ranks of
finished players are pairwise distinct, positive and below `nextFinishRank`
(which starts at 1), and a first goal arrival is assigned exactly the
current `nextFinishRank` together with `61 - rank` coins while the counter
increments by one — so successive arrivals receive the contiguous ranks
1, 2, 3, … and `nextFinishRank - 1` is the largest rank handed out. -/
theorem finishRank_contiguous (s : GameState) (h : Reachable s) :
    (1 ≤ s.nextFinishRank ∧
      (∀ q ∈ s.players, (0 < q.2.finishRank ↔ q.2.reachedGoal = true)) ∧
      (∀ q ∈ s.players, q.2.finishRank < s.nextFinishRank) ∧
      s.players.Pairwise (fun a b => 0 < a.2.finishRank → 0 < b.2.finishRank → a.2.finishRank ≠ b.2.finishRank)) ∧
    (∀ pid p, lookupA s.players pid = some p → p.reachedGoal = false →
      (CheckPlayerReachedGoal s pid).1 = true ∧
      lookupA (CheckPlayerReachedGoal s pid).2.players pid =
        some { p with reachedGoal := true, finishRank := s.nextFinishRank, coins := p.coins + CalculateCoinReward s.nextFinishRank } ∧
      (CheckPlayerReachedGoal s pid).2.nextFinishRank = s.nextFinishRank + 1) := by
  have hi := engineInv_of_Reachable h
  exact ⟨hi.2.1, fun pid p hl hg => checkGoal_assigns s pid p hl hg⟩

/-- A freshly initialized engine with one player, used as C8 witness. -/
def c8s : GameState :=
  applyOp (Initialize (fun _ _ _ => false) [] (1, 1, 1) (5, 5, 5)) (.addPlayer 1 (5, 5, 5))

/-- The player record stored in `c8s`. -/
def c8p : PlayerState :=
  { playerId := 1, x := 5, y := 5, z := 5, rotation := 0, isAlive := true,
    hasCompass := false, hasSpeedBoost := false, speedBoostEndTime := 0,
    coins := 0, inventory := zeroInventory, reachedGoal := false, finishRank := 0 }

/-- Witness for C8 at the concrete reachable one-player state. -/
theorem finishRank_contiguous_witness :
    1 ≤ c8s.nextFinishRank ∧ (CheckPlayerReachedGoal c8s 1).1 = true := by
  have h := finishRank_contiguous c8s
    (Reachable.step _ _ (Reachable.init (fun _ _ _ => false) [] (1, 1, 1) (5, 5, 5)))
  exact ⟨h.1.1, (h.2 1 c8p (by decide) (by decide)).1⟩

/-! ## Claim C9: coin accounting -/

/-- C9: in every reachable state `remainingCoins + count(collected) =
len(coinPositions)` (with the bit vector tracking the coin list);
`CollectCoin` fails on a negative, out-of-range or already-collected index,
and on success sets the bit, decrements `remainingCoins` and increments the
coins of the collecting player. -/
theorem coin_accounting (s : GameState) (h : Reachable s) :
    (s.coinCollected.length = s.coinPositions.length ∧
      s.remainingCoins + (s.coinCollected.count true : Int) = (s.coinPositions.length : Int)) ∧
    (∀ pid cid, (cid < 0 ∨ (s.coinCollected.length : Int) ≤ cid ∨ s.coinCollected.getD cid.toNat false = true) →
      CollectCoin s pid cid = (false, s)) ∧
    (∀ pid p cid, lookupA s.players pid = some p →
      ¬(cid < 0 ∨ (s.coinCollected.length : Int) ≤ cid ∨ s.coinCollected.getD cid.toNat false = true) →
      (CollectCoin s pid cid).1 = true ∧
      (CollectCoin s pid cid).2.coinCollected = s.coinCollected.set cid.toNat true ∧
      (CollectCoin s pid cid).2.remainingCoins = s.remainingCoins - 1 ∧
      lookupA (CollectCoin s pid cid).2.players pid = some { p with coins := p.coins + 1 }) := by
  obtain ⟨hN, hR, hc1, hc2⟩ := engineInv_of_Reachable h
  refine ⟨⟨hc1, by omega⟩, ?_, ?_⟩
  · intro pid cid hcond
    unfold CollectCoin
    rw [if_pos hcond]
  · intro pid p cid hl hcond
    unfold CollectCoin
    rw [if_neg hcond]
    rw [hl]
    dsimp only
    refine ⟨rfl, rfl, rfl, ?_⟩
    show lookupA (setPlayer s pid _).players pid = _
    rw [lookupA_setPlayer_self, hl]
    rfl

/-- A reachable engine with one coin and one player, used as C9 witness. -/
def c9s : GameState :=
  applyOp (Initialize (fun _ _ _ => false) [(2, 0, 2)] (1, 1, 1) (5, 5, 5)) (.addPlayer 1 (1, 1, 1))

/-- The player record stored in `c9s`. -/
def c9p : PlayerState :=
  { playerId := 1, x := 1, y := 1, z := 1, rotation := 0, isAlive := true,
    hasCompass := false, hasSpeedBoost := false, speedBoostEndTime := 0,
    coins := 0, inventory := zeroInventory, reachedGoal := false, finishRank := 0 }

/-- Witness for C9 at the concrete one-coin state. -/
theorem coin_accounting_witness :
    (CollectCoin c9s 1 0).1 = true ∧
    (CollectCoin c9s 1 0).2.remainingCoins = c9s.remainingCoins - 1 := by
  have h := coin_accounting c9s
    (Reachable.step _ _ (Reachable.init (fun _ _ _ => false) [(2, 0, 2)] (1, 1, 1) (5, 5, 5)))
  have h3 := h.2.2 1 c9p 0 (by decide) (by decide)
  exact ⟨h3.1, h3.2.2.1⟩

/-! ## Claim C10: register idempotence -/

/-- C10: registering twice with the same fingerprint/cookie pair returns the
same player id and the second call leaves the player-manager state exactly
as it was — whether the mac is invalid, the identity already existed, or the
first call minted it (in which case the second call resolves it through the
fingerprint index). -/
theorem registerPlayer_idempotent (pm : PMState) (mac cookie freshId1 freshId2 : String)
    (now1 now2 : Int) (hfresh : freshId1 ≠ "") :
    RegisterPlayer (RegisterPlayer pm mac cookie freshId1 now1).2 mac cookie freshId2 now2 =
      ((RegisterPlayer pm mac cookie freshId1 now1).1, (RegisterPlayer pm mac cookie freshId1 now1).2) := by
  by_cases hv : ValidateMacAddress mac = true
  · by_cases he : FindPlayerByIdentifier pm mac cookie = ""
    · -- first call mints `freshId1`; the second resolves it via the mac index
      have hne : ¬((!ValidateMacAddress mac) = true) := by simp [hv]
      have hee : ¬(FindPlayerByIdentifier pm mac cookie ≠ "") := fun hcon => hcon he
      have hfreshmint : (RegisterPlayer pm mac cookie freshId1 now1).1 = freshId1 := by
        unfold RegisterPlayer
        rw [if_neg hne]
        dsimp only
        rw [if_neg hee]
      have hmac : (RegisterPlayer pm mac cookie freshId1 now1).2.macToPlayerId =
          insA pm.macToPlayerId mac freshId1 := by
        unfold RegisterPlayer
        rw [if_neg hne]
        dsimp only
        rw [if_neg hee]
        dsimp only
        by_cases hck : cookie ≠ ""
        · rw [if_pos hck]
        · rw [if_neg hck]
      have hfind2 : FindPlayerByIdentifier (RegisterPlayer pm mac cookie freshId1 now1).2 mac cookie = freshId1 := by
        unfold FindPlayerByIdentifier
        rw [hmac, lookupA_insA_self]
      have h2 : ∀ pmr : PMState, FindPlayerByIdentifier pmr mac cookie = freshId1 →
          RegisterPlayer pmr mac cookie freshId2 now2 = (freshId1, pmr) := by
        intro pmr hfind
        unfold RegisterPlayer
        rw [if_neg hne]
        dsimp only
        rw [hfind]
        rw [if_pos hfresh]
      rw [h2 _ hfind2, hfreshmint]
    · -- the identity already exists: both calls return it unchanged
      have hne : ¬((!ValidateMacAddress mac) = true) := by simp [hv]
      have h1 : RegisterPlayer pm mac cookie freshId1 now1 = (FindPlayerByIdentifier pm mac cookie, pm) := by
        unfold RegisterPlayer
        rw [if_neg hne]
        dsimp only
        rw [if_pos he]
      have h2 : RegisterPlayer pm mac cookie freshId2 now2 = (FindPlayerByIdentifier pm mac cookie, pm) := by
        unfold RegisterPlayer
        rw [if_neg hne]
        dsimp only
        rw [if_pos he]
      rw [h1, h2]
  · -- invalid mac: both calls fail identically
    have hv2 : (!ValidateMacAddress mac) = true := by
      cases hval : ValidateMacAddress mac
      · rfl
      · exact absurd hval hv
    have h1 : RegisterPlayer pm mac cookie freshId1 now1 = ("", pm) := by
      unfold RegisterPlayer
      rw [if_pos hv2]
    have h2 : RegisterPlayer pm mac cookie freshId2 now2 = ("", pm) := by
      unfold RegisterPlayer
      rw [if_pos hv2]
    rw [h1, h2]

/-- An empty player manager. -/
def c10pm : PMState :=
  { players := [], macToPlayerId := [], cookieToPlayerId := [], onlinePlayers := [] }

/-- Witness for C10: registering the same mac/cookie twice on the empty
manager returns the minted id again without touching the state. -/
theorem registerPlayer_idempotent_witness :
    RegisterPlayer (RegisterPlayer c10pm "AA:BB:CC:DD:EE:FF" "ck" "PLAYER_111111" 5).2
        "AA:BB:CC:DD:EE:FF" "ck" "PLAYER_222222" 9 =
      ((RegisterPlayer c10pm "AA:BB:CC:DD:EE:FF" "ck" "PLAYER_111111" 5).1,
       (RegisterPlayer c10pm "AA:BB:CC:DD:EE:FF" "ck" "PLAYER_111111" 5).2) :=
  registerPlayer_idempotent c10pm "AA:BB:CC:DD:EE:FF" "ck" "PLAYER_111111" "PLAYER_222222"
    5 9 (by decide)

end NetLab
